import Mathlib

/-
Verification of the markdown-to-HTML conversion pipeline of
`.github/scripts/build-docs.py` (function `simple_markdown_to_html`).

The Python function is a chain of `re.sub` rewrites applied to one string.
Every regular expression used there is concrete, so each `re.sub` call is
embedded as an executable left-to-right scanner over `List Char` that
reproduces the engine's behaviour for that particular pattern:
at each position the scanner either fires the (unique, deterministic)
match the pattern admits there and resumes after the matched text, or
copies one character and moves on - exactly the semantics of `re.sub`
for these patterns (non-overlapping matches, leftmost first, replacement
text never rescanned).
-/

namespace BuildDocs

/-- Characters the cleanup pattern counts as whitespace: the full
whitespace class of the source's regex engine on text (the ASCII
whitespace and separator controls together with the Unicode space
characters - next line, no-break space, ogham space mark, the en/em
quad family, line and paragraph separators, narrow no-break space,
medium mathematical space, ideographic space). -/
def isWS (c : Char) : Bool :=
  c = '\t' || c = '\n' || c = Char.ofNat 11 || c = Char.ofNat 12 || c = '\r' ||
  c = Char.ofNat 28 || c = Char.ofNat 29 || c = Char.ofNat 30 || c = Char.ofNat 31 ||
  c = ' ' || c = Char.ofNat 133 || c = Char.ofNat 160 || c = Char.ofNat 5760 ||
  c = Char.ofNat 8192 || c = Char.ofNat 8193 || c = Char.ofNat 8194 ||
  c = Char.ofNat 8195 || c = Char.ofNat 8196 || c = Char.ofNat 8197 ||
  c = Char.ofNat 8198 || c = Char.ofNat 8199 || c = Char.ofNat 8200 ||
  c = Char.ofNat 8201 || c = Char.ofNat 8202 || c = Char.ofNat 8232 ||
  c = Char.ofNat 8233 || c = Char.ofNat 8239 || c = Char.ofNat 8287 ||
  c = Char.ofNat 12288

/-- The codepoint intervals of the digit class of the source's regex
engine on text: the Unicode decimal digits (category Nd), one interval
of ten per script (plus the mathematical and segmented-digit blocks). -/
def ndRanges : List (Nat × Nat) :=
  [(48, 57), (1632, 1641), (1776, 1785), (1984, 1993), (2406, 2415),
   (2534, 2543), (2662, 2671), (2790, 2799), (2918, 2927), (3046, 3055),
   (3174, 3183), (3302, 3311), (3430, 3439), (3558, 3567), (3664, 3673),
   (3792, 3801), (3872, 3881), (4160, 4169), (4240, 4249), (6112, 6121),
   (6160, 6169), (6470, 6479), (6608, 6617), (6784, 6793), (6800, 6809),
   (6992, 7001), (7088, 7097), (7232, 7241), (7248, 7257), (42528, 42537),
   (43216, 43225), (43264, 43273), (43472, 43481), (43504, 43513),
   (43600, 43609), (44016, 44025), (65296, 65305), (66720, 66729),
   (68912, 68921), (69734, 69743), (69872, 69881), (69942, 69951),
   (70096, 70105), (70384, 70393), (70736, 70745), (70864, 70873),
   (71248, 71257), (71360, 71369), (71472, 71481), (71904, 71913),
   (72016, 72025), (72784, 72793), (73040, 73049), (73120, 73129),
   (92768, 92777), (92864, 92873), (93008, 93017), (120782, 120831),
   (123200, 123209), (123632, 123641), (125264, 125273), (130032, 130041)]

/-- A character of the digit class (a Unicode decimal digit). -/
def isDigitNd (c : Char) : Bool :=
  ndRanges.any (fun p => decide (p.1 ≤ c.toNat) && decide (c.toNat ≤ p.2))

/-- Characters of the word class, used only for the optional language tag
of a fenced block (every theorem below places a concrete newline at the
tag position, so only the stated characters are ever consulted there). -/
def isWordChar (c : Char) : Bool := c.isAlphanum || c = '_'

/-- Drop the maximal leading whitespace run. -/
def dropWS : List Char → List Char
  | [] => []
  | c :: t => if isWS c then dropWS t else c :: t

/-- Drop the maximal leading word-character run. -/
def dropWord : List Char → List Char
  | [] => []
  | c :: t => if isWordChar c then dropWord t else c :: t

/-- A matcher: given the current suffix of the text, either the pattern
matches here - yielding the replacement text and the rest after the match -
or it does not. -/
abbrev Matcher := List Char → Option (List Char × List Char)

/-- The generic substitution scanner (the body of `re.sub`): walk the text
left to right, firing the matcher where it matches and copying characters
where it does not.  `fuel` only serves termination; every matcher used in
this file consumes at least one character per fire, so `fuel = length`
is always sufficient and the fuel-out branch is never reached. -/
def scanF (m : Matcher) : Nat → List Char → List Char
  | 0, s => s
  | _ + 1, [] => []
  | fuel + 1, c :: t =>
    match m (c :: t) with
    | some (rep, rest) => rep ++ scanF m fuel rest
    | none => c :: scanF m fuel t

/-- Run one substitution pass over the whole text. -/
def runPass (m : Matcher) (s : List Char) : List Char := scanF m s.length s

/-- Matcher of a literal pattern (a `re.sub` with no metacharacters,
or a `str.replace`). -/
def litMatch (pat rep : List Char) : Matcher := fun s =>
  if pat.isPrefixOf s then some (rep, s.drop pat.length) else none

/-- Try the first matcher, else the second (an alternation of patterns
that can never match at the same position). -/
def orElseM (m1 m2 : Matcher) : Matcher := fun s =>
  match m1 s with
  | some r => some r
  | none => m2 s

/-- Split `s` at the first occurrence of delimiter `d`, the body may span
newlines (the non-greedy dot-matches-newline search `(.*?)d`):
returns the body before the delimiter and the rest after it. -/
def splitAtStr (d : List Char) : List Char → Option (List Char × List Char)
  | [] => none
  | c :: t =>
    if d.isPrefixOf (c :: t) then some ([], (c :: t).drop d.length)
    else
      match splitAtStr d t with
      | some (b, r) => some (c :: b, r)
      | none => none

/-- Split `s` at the first occurrence of delimiter `d` on the current line
(the non-greedy search `(.*?)d` where the dot does not match a newline). -/
def splitAtLine (d : List Char) : List Char → Option (List Char × List Char)
  | [] => none
  | c :: t =>
    if d.isPrefixOf (c :: t) then some ([], (c :: t).drop d.length)
    else if c = '\n' then none
    else
      match splitAtLine d t with
      | some (b, r) => some (c :: b, r)
      | none => none

/- Literal fragments used by the replacement templates. -/

def tick3 : List Char := ['`', '`', '`']
def preCodeOpen : List Char :=
  ['<', 'p', 'r', 'e', '>', '<', 'c', 'o', 'd', 'e', '>']
def preCodeClose : List Char :=
  ['<', '/', 'c', 'o', 'd', 'e', '>', '<', '/', 'p', 'r', 'e', '>']
def liOpen : List Char := ['<', 'l', 'i', '>']
def liClose : List Char := ['<', '/', 'l', 'i', '>']
def ulOpen : List Char := ['<', 'u', 'l', '>']
def ulClose : List Char := ['<', '/', 'u', 'l', '>']
def pOpen : List Char := ['<', 'p', '>']
def pClose : List Char := ['<', '/', 'p', '>']

/-- Fenced code block: three backticks, an optional word-character language
tag, a newline, then the shortest body up to the next three backticks
(`(.*?)` with dot-matches-newline); the body is kept verbatim inside a
preformatted code element, the language tag is discarded. -/
def matchFence : Matcher := fun s =>
  if tick3.isPrefixOf s then
    match dropWord (s.drop 3) with
    | '\n' :: afterNl =>
      match splitAtStr tick3 afterNl with
      | some (body, rest) => some (preCodeOpen ++ body ++ preCodeClose, rest)
      | none => none
    | _ => none
  else none

/-- Delimited inline span on one line: `d (.*?) d` with the shortest body,
rewritten to `openT body closeT` (emphasis and inline-code passes). -/
def matchSpan (d openT closeT : List Char) : Matcher := fun s =>
  if d.isPrefixOf s then
    match splitAtLine d (s.drop d.length) with
    | some (body, rest) => some (openT ++ body ++ closeT, rest)
    | none => none
  else none

/-- Non-greedy search for the closing parenthesis of a link target
(`(.*?)\)` on one line): the url up to the first `)`, and the rest. -/
def splitUrl : List Char → Option (List Char × List Char)
  | [] => none
  | c :: t =>
    if c = ')' then some ([], t)
    else if c = '\n' then none
    else
      match splitUrl t with
      | some (u, r) => some (c :: u, r)
      | none => none

/-- After a `[`, find the shortest label followed by `](` such that a `)`
closes the url on the same line; on a failed candidate the label grows past
the `]` (regex backtracking of `\[(.*?)\]\((.*?)\)`).
Returns label, url, rest. -/
def findLinkBody : List Char → Option (List Char × List Char × List Char)
  | [] => none
  | ']' :: '(' :: u =>
    match splitUrl u with
    | some (url, r) => some ([], url, r)
    | none =>
      match findLinkBody ('(' :: u) with
      | some (lab, url, r) => some (']' :: lab, url, r)
      | none => none
  | c :: t =>
    if c = '\n' then none
    else
      match findLinkBody t with
      | some (lab, url, r) => some (c :: lab, url, r)
      | none => none

/-- Link pattern `[label](url)` rewritten to an anchor element. -/
def matchLink : Matcher := fun s =>
  match s with
  | [] => none
  | c :: t =>
    if c = '[' then
      match findLinkBody t with
      | some (lab, url, rest) =>
        some (['<', 'a', ' ', 'h', 'r', 'e', 'f', '=', '"'] ++ url ++
              ['"', '>'] ++ lab ++ ['<', '/', 'a', '>'], rest)
      | none => none
    else none

/- Line-anchored passes (multiline `^...$` patterns) act independently on
every physical line. -/

/-- Split on newline characters; inverse of `joinLines`. -/
def splitLines : List Char → List (List Char)
  | [] => [[]]
  | c :: t =>
    if c = '\n' then [] :: splitLines t
    else
      match splitLines t with
      | [] => [[c]]
      | l :: ls => (c :: l) :: ls

/-- Join lines back with newline characters. -/
def joinLines : List (List Char) → List Char
  | [] => []
  | [l] => l
  | l :: ls => l ++ '\n' :: joinLines ls

/-- Apply a rewrite to every physical line. -/
def mapLines (f : List Char → List Char) (s : List Char) : List Char :=
  joinLines ((splitLines s).map f)

/-- Heading line `^marks(.*?)$` rewritten to `openT rest closeT`. -/
def headerLine (marks openT closeT : List Char) (l : List Char) : List Char :=
  if marks.isPrefixOf l then openT ++ l.drop marks.length ++ closeT else l

/-- Dash list item line `^- (.*?)$`. -/
def dashLine (l : List Char) : List Char :=
  if ['-', ' '].isPrefixOf l then liOpen ++ l.drop 2 ++ liClose else l

/-- Maximal leading decimal-digit run of a line. -/
def splitDigits : List Char → List Char × List Char
  | [] => ([], [])
  | c :: t =>
    if isDigitNd c then
      match splitDigits t with
      | (d, r) => (c :: d, r)
    else ([], c :: t)

/-- Numbered list item line `^\d+\. (.*?)$`. -/
def numLine (l : List Char) : List Char :=
  match splitDigits l with
  | ([], _) => l
  | (_ :: _, r) =>
    if ['.', ' '].isPrefixOf r then liOpen ++ r.drop 2 ++ liClose else l

/-- Grouping pass `(<li>.*?</li>)` with dot-matches-newline: each shortest
item span gets wrapped in its own list container. -/
def matchLiGroup : Matcher := fun s =>
  if liOpen.isPrefixOf s then
    match splitAtStr liClose (s.drop 4) with
    | some (body, rest) =>
      some (ulOpen ++ liOpen ++ body ++ liClose ++ ulClose, rest)
    | none => none
  else none

/-- Empty-paragraph cleanup `<p>\s*</p>` removed outright. -/
def matchEmptyP : Matcher := fun s =>
  if pOpen.isPrefixOf s then
    if pClose.isPrefixOf (dropWS (s.drop 3)) then
      some ([], (dropWS (s.drop 3)).drop 4)
    else none
  else none

/-- Cleanup `<p>(<h[1-6]>)` rewritten to the heading tag alone: an
alternation of the six digit instances, which can never match at the same
position, so trying them in order at each position is the same scan. -/
def matchPH : Matcher :=
  orElseM (litMatch ['<', 'p', '>', '<', 'h', '1', '>'] ['<', 'h', '1', '>'])
    (orElseM (litMatch ['<', 'p', '>', '<', 'h', '2', '>'] ['<', 'h', '2', '>'])
      (orElseM (litMatch ['<', 'p', '>', '<', 'h', '3', '>'] ['<', 'h', '3', '>'])
        (orElseM (litMatch ['<', 'p', '>', '<', 'h', '4', '>'] ['<', 'h', '4', '>'])
          (orElseM (litMatch ['<', 'p', '>', '<', 'h', '5', '>'] ['<', 'h', '5', '>'])
            (litMatch ['<', 'p', '>', '<', 'h', '6', '>'] ['<', 'h', '6', '>'])))))

/-- Cleanup `(</h[1-6]>)</p>` rewritten to the closing heading tag alone. -/
def matchHP : Matcher :=
  orElseM (litMatch ['<', '/', 'h', '1', '>', '<', '/', 'p', '>'] ['<', '/', 'h', '1', '>'])
    (orElseM (litMatch ['<', '/', 'h', '2', '>', '<', '/', 'p', '>'] ['<', '/', 'h', '2', '>'])
      (orElseM (litMatch ['<', '/', 'h', '3', '>', '<', '/', 'p', '>'] ['<', '/', 'h', '3', '>'])
        (orElseM (litMatch ['<', '/', 'h', '4', '>', '<', '/', 'p', '>'] ['<', '/', 'h', '4', '>'])
          (orElseM (litMatch ['<', '/', 'h', '5', '>', '<', '/', 'p', '>'] ['<', '/', 'h', '5', '>'])
            (litMatch ['<', '/', 'h', '6', '>', '<', '/', 'p', '>'] ['<', '/', 'h', '6', '>'])))))

/- The passes of the pipeline, in the order of the source. -/

/-- Pass 1: fenced code blocks. -/
def fencePass (s : List Char) : List Char := runPass matchFence s

/-- Pass 2: `^### (.*?)$` headings. -/
def headerPass3 (s : List Char) : List Char :=
  mapLines (headerLine ['#', '#', '#', ' ']
    ['<', 'h', '3', '>'] ['<', '/', 'h', '3', '>']) s

/-- Pass 3: `^## (.*?)$` headings. -/
def headerPass2 (s : List Char) : List Char :=
  mapLines (headerLine ['#', '#', ' ']
    ['<', 'h', '2', '>'] ['<', '/', 'h', '2', '>']) s

/-- Pass 4: `^# (.*?)$` headings. -/
def headerPass1 (s : List Char) : List Char :=
  mapLines (headerLine ['#', ' ']
    ['<', 'h', '1', '>'] ['<', '/', 'h', '1', '>']) s

/-- Pass 5: `***bold italic***`. -/
def emphasisPass3 (s : List Char) : List Char :=
  runPass (matchSpan ['*', '*', '*']
    ['<', 's', 't', 'r', 'o', 'n', 'g', '>', '<', 'e', 'm', '>']
    ['<', '/', 'e', 'm', '>', '<', '/', 's', 't', 'r', 'o', 'n', 'g', '>']) s

/-- Pass 6: `**bold**`. -/
def emphasisPass2 (s : List Char) : List Char :=
  runPass (matchSpan ['*', '*']
    ['<', 's', 't', 'r', 'o', 'n', 'g', '>']
    ['<', '/', 's', 't', 'r', 'o', 'n', 'g', '>']) s

/-- Pass 7: `*italic*`. -/
def emphasisPass1 (s : List Char) : List Char :=
  runPass (matchSpan ['*']
    ['<', 'e', 'm', '>'] ['<', '/', 'e', 'm', '>']) s

/-- Pass 8: inline code spans. -/
def codePass (s : List Char) : List Char :=
  runPass (matchSpan ['`']
    ['<', 'c', 'o', 'd', 'e', '>'] ['<', '/', 'c', 'o', 'd', 'e', '>']) s

/-- Pass 9: links. -/
def linkPass (s : List Char) : List Char := runPass matchLink s

/-- Pass 10: dash list items. -/
def dashPass (s : List Char) : List Char := mapLines dashLine s

/-- Pass 11: numbered list items. -/
def numPass (s : List Char) : List Char := mapLines numLine s

/-- Pass 12: wrap each item span in a list container. -/
def groupPass (s : List Char) : List Char := runPass matchLiGroup s

/-- The boundary text between two adjacent generated list containers
separated by one newline: `</ul>\n<ul>`. -/
def ulSep : List Char := ulClose ++ '\n' :: ulOpen

/-- Pass 13: the merge step `html.replace('</ul>\n<ul>', '\n')`. -/
def mergePass (s : List Char) : List Char :=
  runPass (litMatch ulSep ['\n']) s

/-- Pass 14: `\n\n` becomes a paragraph boundary and the whole text is
wrapped in one paragraph element. -/
def paragraphPass (s : List Char) : List Char :=
  pOpen ++ runPass (litMatch ['\n', '\n'] (pClose ++ pOpen)) s ++ pClose

/-- The Fragment Normalizer: the final cleanup block of the source
(remove empty paragraphs, unwrap paragraphs around headings, preformatted
blocks and list containers), each rule one substitution pass, in order. -/
def normalize (f : List Char) : List Char :=
  runPass (litMatch (ulClose ++ pClose) ulClose)
    (runPass (litMatch (pOpen ++ ulOpen) ulOpen)
      (runPass (litMatch (['<', '/', 'p', 'r', 'e', '>'] ++ pClose) ['<', '/', 'p', 'r', 'e', '>'])
        (runPass (litMatch (pOpen ++ ['<', 'p', 'r', 'e', '>']) ['<', 'p', 'r', 'e', '>'])
          (runPass matchHP
            (runPass matchPH
              (runPass matchEmptyP f))))))

/-- The whole converter `simple_markdown_to_html`, passes in source order. -/
def simple_markdown_to_html (md : List Char) : List Char :=
  normalize
    (paragraphPass
      (mergePass
        (groupPass
          (numPass
            (dashPass
              (linkPass
                (codePass
                  (emphasisPass1
                    (emphasisPass2
                      (emphasisPass3
                        (headerPass1
                          (headerPass2
                            (headerPass3
                              (fencePass md))))))))))))))

/- Auxiliary decidable notions used to state the claims. -/

/-- `s` does not contain the character `g`. -/
def noChar (g : Char) : List Char → Bool
  | [] => true
  | c :: t => !(c == g) && noChar g t

/-- The matcher fires somewhere in `s` (at some position of the scan). -/
def occursM (m : Matcher) : List Char → Bool
  | [] => false
  | c :: t => (m (c :: t)).isSome || occursM m t

/-- The matcher fires at a position strictly inside the `a` part of `a ++ b`. -/
def occursMA (m : Matcher) : List Char → List Char → Bool
  | [], _ => false
  | c :: t, b => (m (c :: (t ++ b))).isSome || occursMA m t b

/-- Every fire of the matcher starts with the character `g`. -/
def HeadGuard (m : Matcher) (g : Char) : Prop :=
  ∀ s r, m s = some r → ∃ t, s = g :: t

/-- Every character of `s` is whitespace. -/
def allWS : List Char → Bool
  | [] => true
  | c :: t => isWS c && allWS t

/-- Some character of `s` is not whitespace. -/
def hasNonWS : List Char → Bool
  | [] => false
  | c :: t => !(isWS c) || hasNonWS t

/-- `pat` occurs as a contiguous substring of the text. -/
def containsStr (pat : List Char) : List Char → Bool
  | [] => pat.isEmpty
  | c :: t => pat.isPrefixOf (c :: t) || containsStr pat t

/-- A line that begins a numbered list item (`^\d+\. `). -/
def numListStart (l : List Char) : Bool :=
  match splitDigits l with
  | ([], _) => false
  | (_ :: _, r) => ['.', ' '].isPrefixOf r

/-- A line carrying none of the line-anchored markers
(heading marks, dash item, numbered item). -/
def lineOK (l : List Char) : Bool :=
  !(['#', ' '].isPrefixOf l) && !(['#', '#', ' '].isPrefixOf l) &&
  !(['#', '#', '#', ' '].isPrefixOf l) && !(['-', ' '].isPrefixOf l) &&
  !(numListStart l)

/-- A document with no markup recognized by any pass: not whitespace-only,
none of the inline marker characters, no tag-opening character (the
grouping, merge and cleanup passes match literal tag text), no blank-line
boundary, and no line-anchored marker on any line. -/
def plainDoc (doc : List Char) : Bool :=
  hasNonWS doc && noChar '*' doc && noChar '`' doc && noChar '[' doc &&
  noChar '<' doc && !(containsStr ['\n', '\n'] doc) &&
  (splitLines doc).all lineOK

/-- A fragment still containing an occurrence of one of the Fragment
Normalizer's removal patterns. -/
def normResidual (f : List Char) : Bool :=
  occursM matchEmptyP f || occursM matchPH f || occursM matchHP f ||
  occursM (litMatch (pOpen ++ ['<', 'p', 'r', 'e', '>']) ['<', 'p', 'r', 'e', '>']) f ||
  occursM (litMatch (['<', '/', 'p', 'r', 'e', '>'] ++ pClose) ['<', '/', 'p', 'r', 'e', '>']) f ||
  occursM (litMatch (pOpen ++ ulOpen) ulOpen) f ||
  occursM (litMatch (ulClose ++ pClose) ulClose) f

/-- A concatenation of paragraph blocks `<p>wᵢ</p>`. -/
def mkBlocks : List (List Char) → List Char
  | [] => []
  | w :: L => pOpen ++ w ++ pClose ++ mkBlocks L

/- Sanity checks of the embedding on concrete inputs, reproducing what the
Python function returns on them (cross-checked against the reference
implementation). -/

example :
    simple_markdown_to_html
      ('#' :: ' ' :: 'T' :: '\n' :: '\n' :: 'B' :: []) =
      ('<' :: 'h' :: '1' :: '>' :: 'T' :: '<' :: '/' :: 'h' :: '1' :: '>' ::
       '<' :: 'p' :: '>' :: 'B' :: '<' :: '/' :: 'p' :: '>' :: []) := by
  decide

example :
    simple_markdown_to_html ('*' :: '*' :: 'b' :: '*' :: '*' :: []) =
      ('<' :: 'p' :: '>' :: '<' :: 's' :: 't' :: 'r' :: 'o' :: 'n' :: 'g' :: '>' ::
       'b' :: '<' :: '/' :: 's' :: 't' :: 'r' :: 'o' :: 'n' :: 'g' :: '>' ::
       '<' :: '/' :: 'p' :: '>' :: []) := by
  decide

/- Toolkit: generic facts about the scanners. -/

theorem isPrefixOf_self_append (p r : List Char) : p.isPrefixOf (p ++ r) = true := by
  induction p with
  | nil => simp
  | cons c t ih => simp [List.isPrefixOf_cons₂, ih]

theorem isPrefixOf_cons_neq {g c : Char} (gs t : List Char) (h : c ≠ g) :
    (g :: gs).isPrefixOf (c :: t) = false := by
  have hgc : (g == c) = false := by
    simp only [beq_eq_false_iff_ne, ne_eq]
    exact fun hgc => h hgc.symm
  simp [List.isPrefixOf_cons₂, hgc]

theorem litMatch_fire (pat rep r : List Char) :
    litMatch pat rep (pat ++ r) = some (rep, r) := by
  simp [litMatch, isPrefixOf_self_append, List.drop_left]

theorem noChar_cons {g c : Char} {t : List Char} (h : noChar g (c :: t) = true) :
    c ≠ g ∧ noChar g t = true := by
  simpa [noChar] using h

theorem noChar_append {g : Char} (a b : List Char) :
    noChar g (a ++ b) = (noChar g a && noChar g b) := by
  induction a with
  | nil => simp [noChar]
  | cons c t ih => simp [noChar, ih, Bool.and_assoc]

theorem scanF_nil (m : Matcher) (fuel : Nat) : scanF m fuel [] = [] := by
  cases fuel <;> rfl

theorem scanF_cons_none {m : Matcher} {c : Char} {t : List Char} (fuel : Nat)
    (h : m (c :: t) = none) :
    scanF m (fuel + 1) (c :: t) = c :: scanF m fuel t := by
  simp [scanF, h]

theorem scanF_cons_some {m : Matcher} {c : Char} {t rep rest : List Char} (fuel : Nat)
    (h : m (c :: t) = some (rep, rest)) :
    scanF m (fuel + 1) (c :: t) = rep ++ scanF m fuel rest := by
  simp [scanF, h]

theorem scanF_id {m : Matcher} {s : List Char} (h : occursM m s = false) :
    ∀ fuel, scanF m fuel s = s := by
  induction s with
  | nil => intro fuel; exact scanF_nil m fuel
  | cons c t ih =>
    intro fuel
    cases fuel with
    | zero => rfl
    | succ f =>
      simp only [occursM, Bool.or_eq_false_iff] at h
      cases hm : m (c :: t) with
      | some r => rw [hm] at h; simp at h
      | none => rw [scanF_cons_none f hm, ih h.2]

theorem runPass_id {m : Matcher} {s : List Char} (h : occursM m s = false) :
    runPass m s = s :=
  scanF_id h s.length

theorem occursM_append (m : Matcher) (a b : List Char) :
    occursM m (a ++ b) = (occursMA m a b || occursM m b) := by
  induction a with
  | nil => simp [occursMA]
  | cons c t ih =>
    simp only [List.cons_append, occursM, occursMA, List.append_eq, ih, Bool.or_assoc]

theorem occursMA_append (m : Matcher) (p q b : List Char) :
    occursMA m (p ++ q) b = (occursMA m p (q ++ b) || occursMA m q b) := by
  induction p with
  | nil => simp [occursMA]
  | cons c t ih =>
    simp only [List.cons_append, occursMA, List.append_eq, List.append_assoc, ih,
      Bool.or_assoc]

theorem occursMA_guard {m : Matcher} {g : Char} (hm : HeadGuard m g) :
    ∀ {a : List Char} (b : List Char), noChar g a = true → occursMA m a b = false := by
  intro a
  induction a with
  | nil => intro b _; rfl
  | cons c t ih =>
    intro b ha
    obtain ⟨hc, ht⟩ := noChar_cons ha
    have hnone : m (c :: (t ++ b)) = none := by
      cases hv : m (c :: (t ++ b)) with
      | none => rfl
      | some r =>
        obtain ⟨u, hu⟩ := hm _ _ hv
        have : c = g := by injection hu
        exact absurd this hc
    simp [occursMA, hnone, ih b ht]

theorem occursM_guard {m : Matcher} {g : Char} (hm : HeadGuard m g) :
    ∀ {s : List Char}, noChar g s = true → occursM m s = false := by
  intro s
  induction s with
  | nil => intro _; rfl
  | cons c t ih =>
    intro hs
    obtain ⟨hc, ht⟩ := noChar_cons hs
    have hnone : m (c :: t) = none := by
      cases hv : m (c :: t) with
      | none => rfl
      | some r =>
        obtain ⟨u, hu⟩ := hm _ _ hv
        have : c = g := by injection hu
        exact absurd this hc
    simp [occursM, hnone, ih ht]

theorem occursM_litMatch {p : Char} (ps rep : List Char) :
    ∀ s, occursM (litMatch (p :: ps) rep) s = containsStr (p :: ps) s := by
  intro s
  induction s with
  | nil => rfl
  | cons c t ih =>
    by_cases hp : (p :: ps).isPrefixOf (c :: t)
    · simp [occursM, containsStr, litMatch, hp]
    · simp [occursM, containsStr, litMatch, hp, ih]

/- Head guards of the concrete matchers. -/

theorem headGuard_litMatch (g : Char) (gs rep : List Char) :
    HeadGuard (litMatch (g :: gs) rep) g := by
  intro s r h
  by_cases hp : (g :: gs).isPrefixOf s = true
  · cases s with
    | nil => simp at hp
    | cons c t =>
      rw [List.isPrefixOf_cons₂] at hp
      have hgc : g = c := beq_iff_eq.mp ((Bool.and_eq_true _ _).mp hp).1
      exact ⟨t, by rw [hgc]⟩
  · rw [litMatch, if_neg hp] at h
    exact absurd h (by simp)

theorem headGuard_orElseM {m1 m2 : Matcher} {g : Char}
    (h1 : HeadGuard m1 g) (h2 : HeadGuard m2 g) : HeadGuard (orElseM m1 m2) g := by
  intro s r h
  rw [orElseM] at h
  cases hv : m1 s with
  | some v => rw [hv] at h; exact h1 s v hv
  | none => rw [hv] at h; exact h2 s r h

theorem headGuard_matchFence : HeadGuard matchFence '`' := by
  intro s r h
  by_cases hp : tick3.isPrefixOf s = true
  · cases s with
    | nil => simp [tick3] at hp
    | cons c t =>
      rw [tick3, List.isPrefixOf_cons₂] at hp
      have hgc : ('`' : Char) = c := beq_iff_eq.mp ((Bool.and_eq_true _ _).mp hp).1
      exact ⟨t, by rw [hgc]⟩
  · rw [matchFence, if_neg hp] at h
    exact absurd h (by simp)

theorem headGuard_matchSpan (g : Char) (gs openT closeT : List Char) :
    HeadGuard (matchSpan (g :: gs) openT closeT) g := by
  intro s r h
  by_cases hp : (g :: gs).isPrefixOf s = true
  · cases s with
    | nil => simp at hp
    | cons c t =>
      rw [List.isPrefixOf_cons₂] at hp
      have hgc : g = c := beq_iff_eq.mp ((Bool.and_eq_true _ _).mp hp).1
      exact ⟨t, by rw [hgc]⟩
  · rw [matchSpan, if_neg hp] at h
    exact absurd h (by simp)

theorem headGuard_matchLink : HeadGuard matchLink '[' := by
  intro s r h
  cases s with
  | nil => exact absurd h (by simp [matchLink])
  | cons c t =>
    by_cases hc : c = '['
    · exact ⟨t, by rw [hc]⟩
    · simp only [matchLink, if_neg hc] at h
      exact absurd h (by simp)

theorem headGuard_matchLiGroup : HeadGuard matchLiGroup '<' := by
  intro s r h
  by_cases hp : liOpen.isPrefixOf s = true
  · cases s with
    | nil => simp [liOpen] at hp
    | cons c t =>
      rw [liOpen, List.isPrefixOf_cons₂] at hp
      have hgc : ('<' : Char) = c := beq_iff_eq.mp ((Bool.and_eq_true _ _).mp hp).1
      exact ⟨t, by rw [hgc]⟩
  · rw [matchLiGroup, if_neg hp] at h
    exact absurd h (by simp)

theorem headGuard_matchEmptyP : HeadGuard matchEmptyP '<' := by
  intro s r h
  by_cases hp : pOpen.isPrefixOf s = true
  · cases s with
    | nil => simp [pOpen] at hp
    | cons c t =>
      rw [pOpen, List.isPrefixOf_cons₂] at hp
      have hgc : ('<' : Char) = c := beq_iff_eq.mp ((Bool.and_eq_true _ _).mp hp).1
      exact ⟨t, by rw [hgc]⟩
  · rw [matchEmptyP, if_neg hp] at h
    exact absurd h (by simp)

theorem headGuard_matchPH : HeadGuard matchPH '<' := by
  refine headGuard_orElseM (headGuard_litMatch _ _ _) ?_
  refine headGuard_orElseM (headGuard_litMatch _ _ _) ?_
  refine headGuard_orElseM (headGuard_litMatch _ _ _) ?_
  refine headGuard_orElseM (headGuard_litMatch _ _ _) ?_
  exact headGuard_orElseM (headGuard_litMatch _ _ _) (headGuard_litMatch _ _ _)

theorem headGuard_matchHP : HeadGuard matchHP '<' := by
  refine headGuard_orElseM (headGuard_litMatch _ _ _) ?_
  refine headGuard_orElseM (headGuard_litMatch _ _ _) ?_
  refine headGuard_orElseM (headGuard_litMatch _ _ _) ?_
  refine headGuard_orElseM (headGuard_litMatch _ _ _) ?_
  exact headGuard_orElseM (headGuard_litMatch _ _ _) (headGuard_litMatch _ _ _)

/- Firing a match in the middle of a scan. -/

theorem scanF_fire {m : Matcher} {s0 rep rest : List Char}
    (hm : m s0 = some (rep, rest)) (hlt : rest.length < s0.length) :
    ∀ (a : List Char) (fuel : Nat), occursMA m a s0 = false →
      (a ++ s0).length ≤ fuel →
      ∃ f, rest.length ≤ f ∧ scanF m fuel (a ++ s0) = a ++ (rep ++ scanF m f rest) := by
  intro a
  induction a with
  | nil =>
    intro fuel _ hfuel
    rw [List.nil_append] at hfuel
    cases s0 with
    | nil => simp at hlt
    | cons c t =>
      cases fuel with
      | zero => exact absurd hfuel (by simp)
      | succ f =>
        refine ⟨f, ?_, ?_⟩
        · have h1 : rest.length < t.length + 1 := by simpa using hlt
          have h2 : t.length + 1 ≤ f + 1 := by simpa using hfuel
          omega
        · rw [List.nil_append, scanF_cons_some f hm, List.nil_append]
  | cons c a' ih =>
    intro fuel hA hfuel
    simp only [occursMA, Bool.or_eq_false_iff] at hA
    have h1 : m (c :: (a' ++ s0)) = none := by
      cases hv : m (c :: (a' ++ s0)) with
      | none => rfl
      | some v => rw [hv] at hA; simp at hA
    cases fuel with
    | zero =>
      exact absurd hfuel (by simp only [List.cons_append, List.length_cons]; omega)
    | succ f =>
      have hfuel2 : (a' ++ s0).length ≤ f := by
        simp only [List.cons_append, List.length_cons] at hfuel
        omega
      obtain ⟨f', hf', heq⟩ := ih f hA.2 hfuel2
      exact ⟨f', hf', by rw [List.cons_append, scanF_cons_none f h1, heq,
        List.cons_append]⟩

theorem runPass_fire {m : Matcher} {s0 rep rest a : List Char}
    (hm : m s0 = some (rep, rest)) (hlt : rest.length < s0.length)
    (hA : occursMA m a s0 = false) :
    ∃ f, rest.length ≤ f ∧ runPass m (a ++ s0) = a ++ (rep ++ scanF m f rest) :=
  scanF_fire hm hlt a (a ++ s0).length hA (Nat.le_refl _)

theorem runPass_fire_head {m : Matcher} {s0 rep rest : List Char}
    (hm : m s0 = some (rep, rest)) (hlt : rest.length < s0.length) :
    ∃ f, rest.length ≤ f ∧ runPass m s0 = rep ++ scanF m f rest := by
  obtain ⟨f, hf, heq⟩ := scanF_fire hm hlt [] s0.length rfl (by simp)
  rw [List.nil_append, List.nil_append] at heq
  exact ⟨f, hf, heq⟩

/- Behaviour of the delimiter searches. -/

theorem splitAtStr_hit {g : Char} (gs r : List Char) :
    ∀ x, noChar g x = true →
      splitAtStr (g :: gs) (x ++ ((g :: gs) ++ r)) = some (x, r) := by
  intro x
  induction x with
  | nil =>
    intro _
    rw [List.nil_append]
    show splitAtStr (g :: gs) ((g :: gs) ++ r) = some ([], r)
    rw [List.cons_append, splitAtStr, ← List.cons_append,
      isPrefixOf_self_append]
    simp [List.drop_left]
  | cons c t ih =>
    intro hx
    obtain ⟨hc, ht⟩ := noChar_cons hx
    rw [List.cons_append, splitAtStr, isPrefixOf_cons_neq _ _ hc]
    simp only [Bool.false_eq_true, if_false, ih ht]

theorem splitAtStr_miss {g : Char} (gs : List Char) :
    ∀ s, noChar g s = true → splitAtStr (g :: gs) s = none := by
  intro s
  induction s with
  | nil => intro _; rfl
  | cons c t ih =>
    intro hs
    obtain ⟨hc, ht⟩ := noChar_cons hs
    rw [splitAtStr, isPrefixOf_cons_neq _ _ hc]
    simp only [Bool.false_eq_true, if_false, ih ht]

theorem splitAtLine_hit {g : Char} (gs r : List Char) :
    ∀ x, noChar g x = true → noChar '\n' x = true →
      splitAtLine (g :: gs) (x ++ ((g :: gs) ++ r)) = some (x, r) := by
  intro x
  induction x with
  | nil =>
    intro _ _
    rw [List.nil_append]
    show splitAtLine (g :: gs) ((g :: gs) ++ r) = some ([], r)
    rw [List.cons_append, splitAtLine, ← List.cons_append,
      isPrefixOf_self_append]
    simp [List.drop_left]
  | cons c t ih =>
    intro hx hn
    obtain ⟨hc, ht⟩ := noChar_cons hx
    obtain ⟨hcn, htn⟩ := noChar_cons hn
    rw [List.cons_append, splitAtLine, isPrefixOf_cons_neq _ _ hc]
    simp only [Bool.false_eq_true, if_false, if_neg hcn, ih ht htn]

theorem splitAtLine_nl {g : Char} (gs r : List Char) (hg : g ≠ '\n') :
    ∀ y, noChar g y = true → noChar '\n' y = true →
      splitAtLine (g :: gs) (y ++ '\n' :: r) = none := by
  intro y
  induction y with
  | nil =>
    intro _ _
    rw [List.nil_append, splitAtLine,
      isPrefixOf_cons_neq _ _ (fun h => hg h.symm)]
    simp

  | cons c t ih =>
    intro hy hn
    obtain ⟨hc, ht⟩ := noChar_cons hy
    obtain ⟨hcn, htn⟩ := noChar_cons hn
    rw [List.cons_append, splitAtLine, isPrefixOf_cons_neq _ _ hc]
    simp only [Bool.false_eq_true, if_false, if_neg hcn, ih ht htn]

theorem splitAtLine_miss {g : Char} (gs : List Char) :
    ∀ s, noChar g s = true → noChar '\n' s = true →
      splitAtLine (g :: gs) s = none := by
  intro s
  induction s with
  | nil => intro _ _; rfl
  | cons c t ih =>
    intro hs hn
    obtain ⟨hc, ht⟩ := noChar_cons hs
    obtain ⟨hcn, htn⟩ := noChar_cons hn
    rw [splitAtLine, isPrefixOf_cons_neq _ _ hc]
    simp only [Bool.false_eq_true, if_false, if_neg hcn, ih ht htn]

/- Lines. -/

theorem splitLines_ne_nil : ∀ s, splitLines s ≠ [] := by
  intro s
  induction s with
  | nil => simp [splitLines]
  | cons c t ih =>
    by_cases hc : c = '\n'
    · simp [splitLines, hc]
    · cases hL : splitLines t with
      | nil => exact absurd hL ih
      | cons l ls => simp [splitLines, hc, hL]

theorem joinLines_splitLines : ∀ s, joinLines (splitLines s) = s := by
  intro s
  induction s with
  | nil => rfl
  | cons c t ih =>
    by_cases hc : c = '\n'
    · subst hc
      cases hL : splitLines t with
      | nil => exact absurd hL (splitLines_ne_nil t)
      | cons l ls =>
        rw [hL] at ih
        show joinLines ([] :: splitLines t) = '\n' :: t
        rw [hL]
        show [] ++ '\n' :: joinLines (l :: ls) = '\n' :: t
        rw [List.nil_append, ih]
    · cases hL : splitLines t with
      | nil => exact absurd hL (splitLines_ne_nil t)
      | cons l ls =>
        rw [hL] at ih
        have hstep : splitLines (c :: t) = (c :: l) :: ls := by
          rw [splitLines, if_neg hc, hL]
        rw [hstep]
        cases ls with
        | nil =>
          show c :: l = c :: t
          rw [show joinLines [l] = l from rfl] at ih
          rw [ih]
        | cons l2 ls2 =>
          show (c :: l) ++ '\n' :: joinLines (l2 :: ls2) = c :: t
          rw [show joinLines (l :: l2 :: ls2) = l ++ '\n' :: joinLines (l2 :: ls2)
            from rfl] at ih
          rw [← ih, List.cons_append]

theorem splitLines_noNl : ∀ s, noChar '\n' s = true → splitLines s = [s] := by
  intro s
  induction s with
  | nil => intro _; rfl
  | cons c t ih =>
    intro hs
    obtain ⟨hc, ht⟩ := noChar_cons hs
    rw [splitLines, if_neg hc, ih ht]

theorem splitLines_append_nl {r : List Char} :
    ∀ l, noChar '\n' l = true → splitLines (l ++ '\n' :: r) = l :: splitLines r := by
  intro l
  induction l with
  | nil =>
    intro _
    rw [List.nil_append, splitLines, if_pos rfl]
  | cons c t ih =>
    intro hl
    obtain ⟨hc, ht⟩ := noChar_cons hl
    rw [List.cons_append, splitLines, if_neg hc, ih ht]

theorem mapSelf {f : List Char → List Char} :
    ∀ {L : List (List Char)}, (∀ l ∈ L, f l = l) → L.map f = L := by
  intro L
  induction L with
  | nil => intro _; rfl
  | cons l ls ih =>
    intro h
    rw [List.map_cons, h l (by simp), ih (fun x hx => h x (by simp [hx]))]

theorem mapLines_id {f : List Char → List Char} {s : List Char}
    (h : ∀ l ∈ splitLines s, f l = l) : mapLines f s = s := by
  rw [mapLines, mapSelf h, joinLines_splitLines]

/- Whitespace. -/

theorem allWS_cons {c : Char} {t : List Char} (h : allWS (c :: t) = true) :
    isWS c = true ∧ allWS t = true := by
  simpa [allWS] using h

theorem dropWS_ws_append {b : List Char} :
    ∀ a, allWS a = true → dropWS (a ++ b) = dropWS b := by
  intro a
  induction a with
  | nil => intro _; rfl
  | cons c t ih =>
    intro ha
    obtain ⟨hc, ht⟩ := allWS_cons ha
    rw [List.cons_append, dropWS, if_pos hc, ih ht]

theorem dropWS_head_nonws {c : Char} (t : List Char) (h : isWS c = false) :
    dropWS (c :: t) = c :: t := by
  rw [dropWS, if_neg (by simp [h])]

theorem dropWS_first (r : List Char) :
    ∀ s, hasNonWS s = true → noChar '<' s = true →
      ∃ c t, dropWS (s ++ r) = c :: t ∧ c ≠ '<' ∧ isWS c = false := by
  intro s
  induction s with
  | nil => intro h _; simp [hasNonWS] at h
  | cons c t ih =>
    intro hs hn
    obtain ⟨hc, ht⟩ := noChar_cons hn
    by_cases hw : isWS c = true
    · have hs2 : hasNonWS t = true := by
        simpa [hasNonWS, hw] using hs
      rw [List.cons_append, dropWS, if_pos hw]
      exact ih hs2 ht
    · rw [List.cons_append, dropWS, if_neg hw]
      exact ⟨c, t ++ r, rfl, hc, by simpa using hw⟩

/- The claims. -/

/-- C1: the fence-protection property fails on the code.  For the document
holding one fenced block whose body is `*x*`, the emphasis pass rewrites
the body inside the already-converted preformatted element: the final
fragment is `<pre><code><em>x</em>\n</code></pre>`, and the characters
`*x*` do not appear verbatim anywhere in it, although the claim says they
must appear unmodified inside the preformatted element. -/
theorem claim_C1 :
    simple_markdown_to_html
        ('`' :: '`' :: '`' :: '\n' :: '*' :: 'x' :: '*' :: '\n' :: '`' :: '`' :: '`' :: []) =
      ('<' :: 'p' :: 'r' :: 'e' :: '>' :: '<' :: 'c' :: 'o' :: 'd' :: 'e' :: '>' ::
       '<' :: 'e' :: 'm' :: '>' :: 'x' :: '<' :: '/' :: 'e' :: 'm' :: '>' :: '\n' ::
       '<' :: '/' :: 'c' :: 'o' :: 'd' :: 'e' :: '>' :: '<' :: '/' :: 'p' :: 'r' :: 'e' :: '>' :: []) ∧
    containsStr ('*' :: 'x' :: '*' :: [])
      (simple_markdown_to_html
        ('`' :: '`' :: '`' :: '\n' :: '*' :: 'x' :: '*' :: '\n' :: '`' :: '`' :: '`' :: [])) = false := by
  decide

/-- C2, counterexample: normalization is not idempotent on every fragment.
On the doubly wrapped fragment `<p><p><h1>a</h1>` one application removes
only the inner wrapper (the scan resumes after a match, so the newly
exposed `<p><h1>` is not rescanned), and a second application removes
another one. -/
theorem claim_C2_counterexample :
    normalize (normalize
        ('<' :: 'p' :: '>' :: '<' :: 'p' :: '>' :: '<' :: 'h' :: '1' :: '>' :: 'a' ::
         '<' :: '/' :: 'h' :: '1' :: '>' :: [])) ≠
      normalize
        ('<' :: 'p' :: '>' :: '<' :: 'p' :: '>' :: '<' :: 'h' :: '1' :: '>' :: 'a' ::
         '<' :: '/' :: 'h' :: '1' :: '>' :: []) := by
  decide

/-- C3: the no-illegal-nesting invariant fails on the code.  For the
document consisting of the literal text `<p><p><h1>x</h1></p>`, the final
fragment produced by the full pipeline still contains the paragraph
element `<p><h1>x</h1></p>` whose direct and only child is a heading: the
cleanup scan resumes after each match, so stacked wrappers survive. -/
theorem claim_C3 :
    simple_markdown_to_html
        ('<' :: 'p' :: '>' :: '<' :: 'p' :: '>' :: '<' :: 'h' :: '1' :: '>' :: 'x' ::
         '<' :: '/' :: 'h' :: '1' :: '>' :: '<' :: '/' :: 'p' :: '>' :: []) =
      ('<' :: 'p' :: '>' :: '<' :: 'p' :: '>' :: '<' :: 'h' :: '1' :: '>' :: 'x' ::
       '<' :: '/' :: 'h' :: '1' :: '>' :: '<' :: '/' :: 'p' :: '>' :: []) ∧
    containsStr
      ('<' :: 'p' :: '>' :: '<' :: 'h' :: '1' :: '>' :: 'x' ::
       '<' :: '/' :: 'h' :: '1' :: '>' :: '<' :: '/' :: 'p' :: '>' :: [])
      (simple_markdown_to_html
        ('<' :: 'p' :: '>' :: '<' :: 'p' :: '>' :: '<' :: 'h' :: '1' :: '>' :: 'x' ::
         '<' :: '/' :: 'h' :: '1' :: '>' :: '<' :: '/' :: 'p' :: '>' :: [])) = true := by
  decide

/-- C4, counterexample: two list containers separated only by whitespace
(a blank line, i.e. two newlines) are NOT merged: the merge step only
rewrites the exact text `</ul>\n<ul>`.  The document `- a\n\n- b` yields
two adjacent list containers in the final fragment. -/
theorem claim_C4_counterexample :
    simple_markdown_to_html
        ('-' :: ' ' :: 'a' :: '\n' :: '\n' :: '-' :: ' ' :: 'b' :: []) =
      ('<' :: 'u' :: 'l' :: '>' :: '<' :: 'l' :: 'i' :: '>' :: 'a' ::
       '<' :: '/' :: 'l' :: 'i' :: '>' :: '<' :: '/' :: 'u' :: 'l' :: '>' ::
       '<' :: 'u' :: 'l' :: '>' :: '<' :: 'l' :: 'i' :: '>' :: 'b' ::
       '<' :: '/' :: 'l' :: 'i' :: '>' :: '<' :: '/' :: 'u' :: 'l' :: '>' :: []) ∧
    containsStr ('<' :: '/' :: 'u' :: 'l' :: '>' :: '<' :: 'u' :: 'l' :: '>' :: [])
      (simple_markdown_to_html
        ('-' :: ' ' :: 'a' :: '\n' :: '\n' :: '-' :: ' ' :: 'b' :: [])) = true := by
  decide

/-- C7, counterexample: a document with no recognized markup does not
always convert to a paragraph wrapping the text: the whitespace-only
document consisting of one space carries none of the markers the claim
lists, yet the pipeline returns the empty fragment (the empty-paragraph
cleanup removes the wrapper). -/
theorem claim_C7_counterexample :
    simple_markdown_to_html (' ' :: []) = [] ∧
    simple_markdown_to_html (' ' :: []) ≠ pOpen ++ ' ' :: pClose := by
  decide

/-- C2, amended: normalization is idempotent on every fragment whose single
application removes all occurrences of the cleanup patterns - whenever
`normalize f` contains no residual occurrence of any removal pattern,
`normalize (normalize f) = normalize f`.  (It is not idempotent on
arbitrary fragments: stacked wrappers such as `<p><p><h1>a</h1>` need two
applications, see the counterexample.) -/
theorem claim_C2 (f : List Char) (h : normResidual (normalize f) = false) :
    normalize (normalize f) = normalize f := by
  set g := normalize f with hg
  rw [normResidual] at h
  simp only [Bool.or_eq_false_iff] at h
  obtain ⟨⟨⟨⟨⟨⟨h1, h2⟩, h3⟩, h4⟩, h5⟩, h6⟩, h7⟩ := h
  show normalize g = g
  rw [normalize, runPass_id h1, runPass_id h2, runPass_id h3, runPass_id h4,
    runPass_id h5, runPass_id h6, runPass_id h7]

/-- C2, witness: the amended statement applied to the ordinary fragment
`<p><h1>t</h1></p>`, whose normal form `<h1>t</h1>` has no residual
pattern. -/
theorem claim_C2_witness :
    normalize (normalize
        ('<' :: 'p' :: '>' :: '<' :: 'h' :: '1' :: '>' :: 't' ::
         '<' :: '/' :: 'h' :: '1' :: '>' :: '<' :: '/' :: 'p' :: '>' :: [])) =
      normalize
        ('<' :: 'p' :: '>' :: '<' :: 'h' :: '1' :: '>' :: 't' ::
         '<' :: '/' :: 'h' :: '1' :: '>' :: '<' :: '/' :: 'p' :: '>' :: []) :=
  claim_C2 _ (by decide)

/-- C4, amended: the pipeline's merge step joins two list containers
exactly when they are separated by a single newline character (the literal
boundary `</ul>\n<ul>`): for containers `<ul>x</ul>` and `<ul>y</ul>`
whose bodies contain no tag-opening character, the merge step yields the
single container `<ul>x\ny</ul>`.  Containers separated by any other
whitespace - e.g. a blank line - are not merged (see the
counterexample). -/
theorem claim_C4 (x y : List Char) (hx : noChar '<' x = true)
    (hy : noChar '<' y = true) :
    mergePass ((ulOpen ++ x) ++ (ulSep ++ (y ++ ulClose))) =
      (ulOpen ++ x) ++ ('\n' :: (y ++ ulClose)) := by
  have hguard : HeadGuard (litMatch ulSep ['\n']) '<' := headGuard_litMatch _ _ _
  have hfire : litMatch ulSep ['\n'] (ulSep ++ (y ++ ulClose)) =
      some (['\n'], y ++ ulClose) := litMatch_fire _ _ _
  have hlt : (y ++ ulClose).length < (ulSep ++ (y ++ ulClose)).length := by
    simp [ulSep, ulClose, ulOpen]
  have hA : occursMA (litMatch ulSep ['\n']) (ulOpen ++ x)
      (ulSep ++ (y ++ ulClose)) = false := by
    rw [occursMA_append]
    refine Bool.or_eq_false_iff.mpr ⟨?_, occursMA_guard hguard _ hx⟩
    simp [occursMA, litMatch, ulSep, ulOpen, ulClose, List.isPrefixOf_cons₂]
  obtain ⟨f, hf, heq⟩ := runPass_fire hfire hlt hA
  rw [mergePass, heq]
  have hid : occursM (litMatch ulSep ['\n']) (y ++ ulClose) = false := by
    rw [occursM_append]
    exact Bool.or_eq_false_iff.mpr ⟨occursMA_guard hguard _ hy, by decide⟩
  rw [scanF_id hid]
  rfl

/-- C4, witness: the amended statement at the concrete containers
`<ul>a</ul>` and `<ul>b</ul>` separated by one newline. -/
theorem claim_C4_witness :
    mergePass ((ulOpen ++ ('a' :: [])) ++ (ulSep ++ (('b' :: []) ++ ulClose))) =
      (ulOpen ++ ('a' :: [])) ++ ('\n' :: (('b' :: []) ++ ulClose)) :=
  claim_C4 ('a' :: []) ('b' :: []) (by decide) (by decide)

/-- Firing the fenced-block matcher on a tag-less fence whose body holds no
backtick: the body is matched up to the nearest closing fence. -/
theorem matchFence_fire (body rest : List Char) (hb : noChar '`' body = true) :
    matchFence (tick3 ++ '\n' :: (body ++ (tick3 ++ rest))) =
      some (preCodeOpen ++ body ++ preCodeClose, rest) := by
  simp only [matchFence, isPrefixOf_self_append, if_true]
  rw [List.drop_left' (by rfl)]
  rw [show dropWord ('\n' :: (body ++ (tick3 ++ rest))) =
    '\n' :: (body ++ (tick3 ++ rest)) from by rw [dropWord, if_neg (by decide)]]
  show (match splitAtStr tick3 (body ++ (tick3 ++ rest)) with
    | some (b, r) => some (preCodeOpen ++ b ++ preCodeClose, r)
    | none => none) = some (preCodeOpen ++ body ++ preCodeClose, rest)
  rw [show (tick3 : List Char) = '`' :: '`' :: '`' :: [] from rfl,
    splitAtStr_hit _ _ body hb]

/-- Firing an inline-span matcher on a delimited body holding neither the
delimiter character nor a newline. -/
theorem matchSpan_fire (g : Char) (gs openT closeT body rest : List Char)
    (hb : noChar g body = true) (hbn : noChar '\n' body = true) :
    matchSpan (g :: gs) openT closeT ((g :: gs) ++ (body ++ ((g :: gs) ++ rest))) =
      some (openT ++ body ++ closeT, rest) := by
  simp only [matchSpan, isPrefixOf_self_append, if_true]
  rw [List.drop_left, splitAtLine_hit gs rest body hb hbn]

/-- C9: fenced-block independence.  For a document holding two separate
tag-less fenced blocks with intervening text between them (no backtick in
either body nor in the middle text), the fenced-block pass matches each
block independently: the output is two distinct preformatted code elements
with the intervening text between them, outside both. -/
theorem claim_C9 (b1 mid b2 : List Char) (hb1 : noChar '`' b1 = true)
    (hmid : noChar '`' mid = true) (hb2 : noChar '`' b2 = true) :
    fencePass (tick3 ++ '\n' ::
        (b1 ++ (tick3 ++ (mid ++ (tick3 ++ '\n' :: (b2 ++ tick3)))))) =
      (preCodeOpen ++ b1 ++ preCodeClose) ++
        (mid ++ (preCodeOpen ++ b2 ++ preCodeClose)) := by
  have hfire1 := matchFence_fire b1 (mid ++ (tick3 ++ '\n' :: (b2 ++ tick3))) hb1
  have hlt1 : (mid ++ (tick3 ++ '\n' :: (b2 ++ tick3))).length <
      (tick3 ++ '\n' :: (b1 ++ (tick3 ++ (mid ++ (tick3 ++ '\n' :: (b2 ++ tick3)))))).length := by
    simp [tick3]
    omega
  have h0 : occursMA matchFence []
      (tick3 ++ '\n' :: (b1 ++ (tick3 ++ (mid ++ (tick3 ++ '\n' :: (b2 ++ tick3)))))) = false := rfl
  obtain ⟨f, hf, heq⟩ := runPass_fire hfire1 hlt1 h0
  rw [List.nil_append] at heq
  rw [fencePass, heq, List.nil_append]
  have hfire2 : matchFence (tick3 ++ '\n' :: (b2 ++ tick3)) =
      some (preCodeOpen ++ b2 ++ preCodeClose, []) := by
    have := matchFence_fire b2 [] hb2
    rwa [List.append_nil] at this
  have hlt2 : ([] : List Char).length < (tick3 ++ '\n' :: (b2 ++ tick3)).length := by
    simp [tick3]
  have hA2 : occursMA matchFence mid (tick3 ++ '\n' :: (b2 ++ tick3)) = false :=
    occursMA_guard headGuard_matchFence _ hmid
  obtain ⟨f2, hf2, heq2⟩ := scanF_fire hfire2 hlt2 mid f hA2 (by
    exact le_trans (Nat.le_refl _) hf)
  rw [heq2, scanF_nil, List.append_nil]

/-- C9, witness: two one-line fenced blocks around the middle text `m`. -/
theorem claim_C9_witness :
    fencePass (tick3 ++ '\n' ::
        (('A' :: '\n' :: []) ++ (tick3 ++ (('m' :: []) ++
          (tick3 ++ '\n' :: (('B' :: '\n' :: []) ++ tick3)))))) =
      (preCodeOpen ++ ('A' :: '\n' :: []) ++ preCodeClose) ++
        (('m' :: []) ++ (preCodeOpen ++ ('B' :: '\n' :: []) ++ preCodeClose)) :=
  claim_C9 _ _ _ (by decide) (by decide) (by decide)

/- Inline passes never match across a newline. -/

theorem matcher_none_of_head {m : Matcher} {g c : Char} (t : List Char)
    (hm : HeadGuard m g) (hc : c ≠ g) : m (c :: t) = none := by
  cases hv : m (c :: t) with
  | none => rfl
  | some r =>
    obtain ⟨u, hu⟩ := hm _ _ hv
    have : c = g := by injection hu
    exact absurd this hc

theorem isPrefixOf_none_of_noChar {g : Char} (gs : List Char) :
    ∀ s, noChar g s = true → (g :: gs).isPrefixOf s = false := by
  intro s hs
  cases s with
  | nil => rfl
  | cons c t => exact isPrefixOf_cons_neq _ _ (noChar_cons hs).1

theorem isPrefixOf_append_neq {g c : Char} (gs r y : List Char)
    (hy : noChar g y = true) (hc : c ≠ g) :
    (g :: gs).isPrefixOf (y ++ c :: r) = false := by
  cases y with
  | nil => exact isPrefixOf_cons_neq _ _ hc
  | cons d t => exact isPrefixOf_cons_neq _ _ (noChar_cons hy).1

/-- A single-character span delimiter with lone markers on two different
lines never matches anywhere in the text. -/
theorem occursM_span_single {g : Char} (openT closeT x y z w : List Char)
    (hg : g ≠ '\n')
    (hx : noChar g x = true) (hy : noChar g y = true)
    (hz : noChar g z = true) (hw : noChar g w = true)
    (hyn : noChar '\n' y = true) (hwn : noChar '\n' w = true) :
    occursM (matchSpan (g :: []) openT closeT)
      (x ++ g :: (y ++ '\n' :: (z ++ g :: w))) = false := by
  have hguard : HeadGuard (matchSpan (g :: []) openT closeT) g :=
    headGuard_matchSpan g [] openT closeT
  have hpre1 : (g :: ([] : List Char)).isPrefixOf
      (g :: (y ++ '\n' :: (z ++ g :: w))) = true :=
    isPrefixOf_self_append (g :: []) (y ++ '\n' :: (z ++ g :: w))
  have hnone1 : matchSpan (g :: []) openT closeT
      (g :: (y ++ '\n' :: (z ++ g :: w))) = none := by
    simp only [matchSpan, hpre1, if_true]
    rw [show (g :: (y ++ '\n' :: (z ++ g :: w))).drop (g :: ([] : List Char)).length =
      y ++ '\n' :: (z ++ g :: w) from rfl]
    rw [splitAtLine_nl [] (z ++ g :: w) hg y hy hyn]
  have hpre2 : (g :: ([] : List Char)).isPrefixOf (g :: w) = true :=
    isPrefixOf_self_append (g :: []) w
  have hnone2 : matchSpan (g :: []) openT closeT (g :: w) = none := by
    simp only [matchSpan, hpre2, if_true]
    rw [show (g :: w).drop (g :: ([] : List Char)).length = w from rfl]
    rw [splitAtLine_miss [] w hw hwn]
  rw [occursM_append]
  refine Bool.or_eq_false_iff.mpr ⟨occursMA_guard hguard _ hx, ?_⟩
  rw [occursM, hnone1]
  refine Bool.or_eq_false_iff.mpr ⟨rfl, ?_⟩
  rw [occursM_append]
  refine Bool.or_eq_false_iff.mpr ⟨occursMA_guard hguard _ hy, ?_⟩
  rw [occursM, matcher_none_of_head _ hguard (fun h => hg h.symm)]
  refine Bool.or_eq_false_iff.mpr ⟨rfl, ?_⟩
  rw [occursM_append]
  refine Bool.or_eq_false_iff.mpr ⟨occursMA_guard hguard _ hz, ?_⟩
  rw [occursM, hnone2]
  exact Bool.or_eq_false_iff.mpr ⟨rfl, occursM_guard hguard hw⟩

/-- A span delimiter made of two or more copies of the marker never
matches in a text whose only markers are two lone ones on different
lines. -/
theorem occursM_span_multi {g : Char} (gs openT closeT x y z w : List Char)
    (hg : g ≠ '\n')
    (hx : noChar g x = true) (hy : noChar g y = true)
    (hz : noChar g z = true) (hw : noChar g w = true) :
    occursM (matchSpan (g :: g :: gs) openT closeT)
      (x ++ g :: (y ++ '\n' :: (z ++ g :: w))) = false := by
  have hguard : HeadGuard (matchSpan (g :: g :: gs) openT closeT) g :=
    headGuard_matchSpan g (g :: gs) openT closeT
  have hnone1 : matchSpan (g :: g :: gs) openT closeT
      (g :: (y ++ '\n' :: (z ++ g :: w))) = none := by
    have hfail : (g :: g :: gs).isPrefixOf
        (g :: (y ++ '\n' :: (z ++ g :: w))) = false := by
      rw [List.isPrefixOf_cons₂,
        isPrefixOf_append_neq gs (z ++ g :: w) y hy (fun h => hg h.symm)]
      simp
    simp only [matchSpan, hfail, Bool.false_eq_true, if_false]
  have hnone2 : matchSpan (g :: g :: gs) openT closeT (g :: w) = none := by
    have hfail : (g :: g :: gs).isPrefixOf (g :: w) = false := by
      rw [List.isPrefixOf_cons₂, isPrefixOf_none_of_noChar gs w hw]
      simp
    simp only [matchSpan, hfail, Bool.false_eq_true, if_false]
  rw [occursM_append]
  refine Bool.or_eq_false_iff.mpr ⟨occursMA_guard hguard _ hx, ?_⟩
  rw [occursM, hnone1]
  refine Bool.or_eq_false_iff.mpr ⟨rfl, ?_⟩
  rw [occursM_append]
  refine Bool.or_eq_false_iff.mpr ⟨occursMA_guard hguard _ hy, ?_⟩
  rw [occursM, matcher_none_of_head _ hguard (fun h => hg h.symm)]
  refine Bool.or_eq_false_iff.mpr ⟨rfl, ?_⟩
  rw [occursM_append]
  refine Bool.or_eq_false_iff.mpr ⟨occursMA_guard hguard _ hz, ?_⟩
  rw [occursM, hnone2]
  exact Bool.or_eq_false_iff.mpr ⟨rfl, occursM_guard hguard hw⟩

/-- C10: line-locality of the inline passes.  When an opening marker (an
asterisk or a backtick) and its would-be closing marker lie on different
lines with no same-line partner, none of the emphasis passes nor the
inline-code pass rewrites anything: the marker characters pass through the
whole inline stage verbatim, because the span patterns never match across
a newline. -/
theorem claim_C10 (x y z w : List Char)
    (hx1 : noChar '*' x = true) (hy1 : noChar '*' y = true)
    (hz1 : noChar '*' z = true) (hw1 : noChar '*' w = true)
    (hx2 : noChar '`' x = true) (hy2 : noChar '`' y = true)
    (hz2 : noChar '`' z = true) (hw2 : noChar '`' w = true)
    (hyn : noChar '\n' y = true) (hwn : noChar '\n' w = true) :
    codePass (emphasisPass1 (emphasisPass2 (emphasisPass3
        (x ++ '*' :: (y ++ '\n' :: (z ++ '*' :: w)))))) =
      x ++ '*' :: (y ++ '\n' :: (z ++ '*' :: w)) ∧
    codePass (emphasisPass1 (emphasisPass2 (emphasisPass3
        (x ++ '`' :: (y ++ '\n' :: (z ++ '`' :: w)))))) =
      x ++ '`' :: (y ++ '\n' :: (z ++ '`' :: w)) := by
  constructor
  · have i3 : emphasisPass3 (x ++ '*' :: (y ++ '\n' :: (z ++ '*' :: w))) =
        x ++ '*' :: (y ++ '\n' :: (z ++ '*' :: w)) := by
      rw [emphasisPass3]
      exact runPass_id (occursM_span_multi _ _ _ x y z w (by decide) hx1 hy1 hz1 hw1)
    have i2 : emphasisPass2 (x ++ '*' :: (y ++ '\n' :: (z ++ '*' :: w))) =
        x ++ '*' :: (y ++ '\n' :: (z ++ '*' :: w)) := by
      rw [emphasisPass2]
      exact runPass_id (occursM_span_multi _ _ _ x y z w (by decide) hx1 hy1 hz1 hw1)
    have i1 : emphasisPass1 (x ++ '*' :: (y ++ '\n' :: (z ++ '*' :: w))) =
        x ++ '*' :: (y ++ '\n' :: (z ++ '*' :: w)) := by
      rw [emphasisPass1]
      exact runPass_id
        (occursM_span_single _ _ x y z w (by decide) hx1 hy1 hz1 hw1 hyn hwn)
    have hnb : noChar '`' (x ++ '*' :: (y ++ '\n' :: (z ++ '*' :: w))) = true := by
      simp [noChar_append, noChar, hx2, hy2, hz2, hw2]
    have ic : codePass (x ++ '*' :: (y ++ '\n' :: (z ++ '*' :: w))) =
        x ++ '*' :: (y ++ '\n' :: (z ++ '*' :: w)) := by
      rw [codePass]
      exact runPass_id (occursM_guard (headGuard_matchSpan '`' [] _ _) hnb)
    rw [i3, i2, i1, ic]
  · have hns : noChar '*' (x ++ '`' :: (y ++ '\n' :: (z ++ '`' :: w))) = true := by
      simp [noChar_append, noChar, hx1, hy1, hz1, hw1]
    have i3 : emphasisPass3 (x ++ '`' :: (y ++ '\n' :: (z ++ '`' :: w))) =
        x ++ '`' :: (y ++ '\n' :: (z ++ '`' :: w)) := by
      rw [emphasisPass3]
      exact runPass_id (occursM_guard (headGuard_matchSpan '*' _ _ _) hns)
    have i2 : emphasisPass2 (x ++ '`' :: (y ++ '\n' :: (z ++ '`' :: w))) =
        x ++ '`' :: (y ++ '\n' :: (z ++ '`' :: w)) := by
      rw [emphasisPass2]
      exact runPass_id (occursM_guard (headGuard_matchSpan '*' _ _ _) hns)
    have i1 : emphasisPass1 (x ++ '`' :: (y ++ '\n' :: (z ++ '`' :: w))) =
        x ++ '`' :: (y ++ '\n' :: (z ++ '`' :: w)) := by
      rw [emphasisPass1]
      exact runPass_id (occursM_guard (headGuard_matchSpan '*' _ _ _) hns)
    have ic : codePass (x ++ '`' :: (y ++ '\n' :: (z ++ '`' :: w))) =
        x ++ '`' :: (y ++ '\n' :: (z ++ '`' :: w)) := by
      rw [codePass]
      exact runPass_id
        (occursM_span_single _ _ x y z w (by decide) hx2 hy2 hz2 hw2 hyn hwn)
    rw [i3, i2, i1, ic]

/-- C10, witness: the documents `a*b\nc*d` and `a`b\nc`d`, whose markers
sit on two different lines, pass through the inline stage verbatim. -/
theorem claim_C10_witness :
    codePass (emphasisPass1 (emphasisPass2 (emphasisPass3
        (('a' :: []) ++ '*' :: (('b' :: []) ++ '\n' :: (('c' :: []) ++ '*' :: ('d' :: []))))))) =
      ('a' :: []) ++ '*' :: (('b' :: []) ++ '\n' :: (('c' :: []) ++ '*' :: ('d' :: []))) ∧
    codePass (emphasisPass1 (emphasisPass2 (emphasisPass3
        (('a' :: []) ++ '`' :: (('b' :: []) ++ '\n' :: (('c' :: []) ++ '`' :: ('d' :: []))))))) =
      ('a' :: []) ++ '`' :: (('b' :: []) ++ '\n' :: (('c' :: []) ++ '`' :: ('d' :: []))) :=
  claim_C10 _ _ _ _ (by decide) (by decide) (by decide) (by decide) (by decide)
    (by decide) (by decide) (by decide) (by decide) (by decide)

/- Line-pass identities. -/

theorem headerLine_id {marks openT closeT s : List Char}
    (h : marks.isPrefixOf s = false) : headerLine marks openT closeT s = s := by
  rw [headerLine, if_neg (by simp [h])]

theorem dashLine_id {s : List Char} (h : (['-', ' '] : List Char).isPrefixOf s = false) :
    dashLine s = s := by
  rw [dashLine, if_neg (by simp [h])]

theorem numLine_id {s : List Char} (h : numListStart s = false) : numLine s = s := by
  cases hsd : splitDigits s with
  | mk d r =>
    cases d with
    | nil => rw [numLine, hsd]
    | cons a as =>
      rw [numListStart, hsd] at h
      have h2 : (['.', ' '] : List Char).isPrefixOf r = false := h
      rw [numLine, hsd]
      show (if (['.', ' '] : List Char).isPrefixOf r = true
        then liOpen ++ List.drop 2 r ++ liClose else s) = s
      rw [if_neg (by simp [h2])]

theorem numListStart_head {c : Char} (t : List Char) (h : isDigitNd c = false) :
    numListStart (c :: t) = false := by
  rw [numListStart, splitDigits, if_neg (by simp [h])]

/-- C5: emphasis precedence.  A span `***x***` (triple markers around a
one-line run `x` carrying no markup characters of its own) converts to the
combined element `<strong><em>x</em></strong>` - wrapped in the paragraph
element the pipeline puts around the document - with no mismatched
leftover marker characters: the triple-marker pass fires first and
consumes all six markers, and every later pass leaves the result
unchanged. -/
theorem claim_C5 (x : List Char)
    (hstar : noChar '*' x = true) (hnl : noChar '\n' x = true)
    (htick : noChar '`' x = true) (hbr : noChar '[' x = true)
    (hlt : noChar '<' x = true) :
    simple_markdown_to_html (['*', '*', '*'] ++ (x ++ ['*', '*', '*'])) =
      pOpen ++ (['<', 's', 't', 'r', 'o', 'n', 'g', '>', '<', 'e', 'm', '>'] ++ x ++
        ['<', '/', 'e', 'm', '>', '<', '/', 's', 't', 'r', 'o', 'n', 'g', '>']) ++ pClose := by
  have hdoct : noChar '`' (['*', '*', '*'] ++ (x ++ ['*', '*', '*'])) = true := by
    simp [noChar_append, noChar, htick]
  have hdocn : noChar '\n' (['*', '*', '*'] ++ (x ++ ['*', '*', '*'])) = true := by
    simp [noChar_append, noChar, hnl]
  have hsplit : splitLines (['*', '*', '*'] ++ (x ++ ['*', '*', '*'])) =
      [['*', '*', '*'] ++ (x ++ ['*', '*', '*'])] := splitLines_noNl _ hdocn
  have s1 : fencePass (['*', '*', '*'] ++ (x ++ ['*', '*', '*'])) =
      ['*', '*', '*'] ++ (x ++ ['*', '*', '*']) := by
    rw [fencePass]
    exact runPass_id (occursM_guard headGuard_matchFence hdoct)
  have s2 : headerPass3 (['*', '*', '*'] ++ (x ++ ['*', '*', '*'])) =
      ['*', '*', '*'] ++ (x ++ ['*', '*', '*']) := by
    rw [headerPass3]
    apply mapLines_id
    intro l hl
    rw [hsplit, List.mem_singleton] at hl
    subst hl
    exact headerLine_id (isPrefixOf_cons_neq _ _ (by decide))
  have s3 : headerPass2 (['*', '*', '*'] ++ (x ++ ['*', '*', '*'])) =
      ['*', '*', '*'] ++ (x ++ ['*', '*', '*']) := by
    rw [headerPass2]
    apply mapLines_id
    intro l hl
    rw [hsplit, List.mem_singleton] at hl
    subst hl
    exact headerLine_id (isPrefixOf_cons_neq _ _ (by decide))
  have s4 : headerPass1 (['*', '*', '*'] ++ (x ++ ['*', '*', '*'])) =
      ['*', '*', '*'] ++ (x ++ ['*', '*', '*']) := by
    rw [headerPass1]
    apply mapLines_id
    intro l hl
    rw [hsplit, List.mem_singleton] at hl
    subst hl
    exact headerLine_id (isPrefixOf_cons_neq _ _ (by decide))
  have s5 : emphasisPass3 (['*', '*', '*'] ++ (x ++ ['*', '*', '*'])) =
      ['<', 's', 't', 'r', 'o', 'n', 'g', '>', '<', 'e', 'm', '>'] ++ x ++
        ['<', '/', 'e', 'm', '>', '<', '/', 's', 't', 'r', 'o', 'n', 'g', '>'] := by
    rw [emphasisPass3]
    have hfire := matchSpan_fire '*' ['*', '*']
      ['<', 's', 't', 'r', 'o', 'n', 'g', '>', '<', 'e', 'm', '>']
      ['<', '/', 'e', 'm', '>', '<', '/', 's', 't', 'r', 'o', 'n', 'g', '>']
      x [] hstar hnl
    have hlen : ([] : List Char).length <
        (['*', '*', '*'] ++ (x ++ (['*', '*', '*'] ++ ([] : List Char)))).length := by
      simp
    obtain ⟨f, hf, heq⟩ := runPass_fire_head hfire hlen
    simp only [List.append_nil, scanF_nil] at heq
    exact heq
  have hF1star : noChar '*'
      (['<', 's', 't', 'r', 'o', 'n', 'g', '>', '<', 'e', 'm', '>'] ++ x ++
        ['<', '/', 'e', 'm', '>', '<', '/', 's', 't', 'r', 'o', 'n', 'g', '>']) = true := by
    simp [noChar_append, noChar, hstar]
  have hF1tick : noChar '`'
      (['<', 's', 't', 'r', 'o', 'n', 'g', '>', '<', 'e', 'm', '>'] ++ x ++
        ['<', '/', 'e', 'm', '>', '<', '/', 's', 't', 'r', 'o', 'n', 'g', '>']) = true := by
    simp [noChar_append, noChar, htick]
  have hF1br : noChar '['
      (['<', 's', 't', 'r', 'o', 'n', 'g', '>', '<', 'e', 'm', '>'] ++ x ++
        ['<', '/', 'e', 'm', '>', '<', '/', 's', 't', 'r', 'o', 'n', 'g', '>']) = true := by
    simp [noChar_append, noChar, hbr]
  have hF1nl : noChar '\n'
      (['<', 's', 't', 'r', 'o', 'n', 'g', '>', '<', 'e', 'm', '>'] ++ x ++
        ['<', '/', 'e', 'm', '>', '<', '/', 's', 't', 'r', 'o', 'n', 'g', '>']) = true := by
    simp [noChar_append, noChar, hnl]
  have hF1split : splitLines
      (['<', 's', 't', 'r', 'o', 'n', 'g', '>', '<', 'e', 'm', '>'] ++ x ++
        ['<', '/', 'e', 'm', '>', '<', '/', 's', 't', 'r', 'o', 'n', 'g', '>']) =
      [['<', 's', 't', 'r', 'o', 'n', 'g', '>', '<', 'e', 'm', '>'] ++ x ++
        ['<', '/', 'e', 'm', '>', '<', '/', 's', 't', 'r', 'o', 'n', 'g', '>']] :=
    splitLines_noNl _ hF1nl
  have s6 : emphasisPass2
      (['<', 's', 't', 'r', 'o', 'n', 'g', '>', '<', 'e', 'm', '>'] ++ x ++
        ['<', '/', 'e', 'm', '>', '<', '/', 's', 't', 'r', 'o', 'n', 'g', '>']) =
      ['<', 's', 't', 'r', 'o', 'n', 'g', '>', '<', 'e', 'm', '>'] ++ x ++
        ['<', '/', 'e', 'm', '>', '<', '/', 's', 't', 'r', 'o', 'n', 'g', '>'] := by
    rw [emphasisPass2]
    exact runPass_id (occursM_guard (headGuard_matchSpan '*' _ _ _) hF1star)
  have s7 : emphasisPass1
      (['<', 's', 't', 'r', 'o', 'n', 'g', '>', '<', 'e', 'm', '>'] ++ x ++
        ['<', '/', 'e', 'm', '>', '<', '/', 's', 't', 'r', 'o', 'n', 'g', '>']) =
      ['<', 's', 't', 'r', 'o', 'n', 'g', '>', '<', 'e', 'm', '>'] ++ x ++
        ['<', '/', 'e', 'm', '>', '<', '/', 's', 't', 'r', 'o', 'n', 'g', '>'] := by
    rw [emphasisPass1]
    exact runPass_id (occursM_guard (headGuard_matchSpan '*' _ _ _) hF1star)
  have s8 : codePass
      (['<', 's', 't', 'r', 'o', 'n', 'g', '>', '<', 'e', 'm', '>'] ++ x ++
        ['<', '/', 'e', 'm', '>', '<', '/', 's', 't', 'r', 'o', 'n', 'g', '>']) =
      ['<', 's', 't', 'r', 'o', 'n', 'g', '>', '<', 'e', 'm', '>'] ++ x ++
        ['<', '/', 'e', 'm', '>', '<', '/', 's', 't', 'r', 'o', 'n', 'g', '>'] := by
    rw [codePass]
    exact runPass_id (occursM_guard (headGuard_matchSpan '`' _ _ _) hF1tick)
  have s9 : linkPass
      (['<', 's', 't', 'r', 'o', 'n', 'g', '>', '<', 'e', 'm', '>'] ++ x ++
        ['<', '/', 'e', 'm', '>', '<', '/', 's', 't', 'r', 'o', 'n', 'g', '>']) =
      ['<', 's', 't', 'r', 'o', 'n', 'g', '>', '<', 'e', 'm', '>'] ++ x ++
        ['<', '/', 'e', 'm', '>', '<', '/', 's', 't', 'r', 'o', 'n', 'g', '>'] := by
    rw [linkPass]
    exact runPass_id (occursM_guard headGuard_matchLink hF1br)
  have s10 : dashPass
      (['<', 's', 't', 'r', 'o', 'n', 'g', '>', '<', 'e', 'm', '>'] ++ x ++
        ['<', '/', 'e', 'm', '>', '<', '/', 's', 't', 'r', 'o', 'n', 'g', '>']) =
      ['<', 's', 't', 'r', 'o', 'n', 'g', '>', '<', 'e', 'm', '>'] ++ x ++
        ['<', '/', 'e', 'm', '>', '<', '/', 's', 't', 'r', 'o', 'n', 'g', '>'] := by
    rw [dashPass]
    apply mapLines_id
    intro l hl
    rw [hF1split, List.mem_singleton] at hl
    subst hl
    exact dashLine_id (isPrefixOf_cons_neq _ _ (by decide))
  have s11 : numPass
      (['<', 's', 't', 'r', 'o', 'n', 'g', '>', '<', 'e', 'm', '>'] ++ x ++
        ['<', '/', 'e', 'm', '>', '<', '/', 's', 't', 'r', 'o', 'n', 'g', '>']) =
      ['<', 's', 't', 'r', 'o', 'n', 'g', '>', '<', 'e', 'm', '>'] ++ x ++
        ['<', '/', 'e', 'm', '>', '<', '/', 's', 't', 'r', 'o', 'n', 'g', '>'] := by
    rw [numPass]
    apply mapLines_id
    intro l hl
    rw [hF1split, List.mem_singleton] at hl
    subst hl
    exact numLine_id (numListStart_head _ (by decide))
  have s12 : groupPass
      (['<', 's', 't', 'r', 'o', 'n', 'g', '>', '<', 'e', 'm', '>'] ++ x ++
        ['<', '/', 'e', 'm', '>', '<', '/', 's', 't', 'r', 'o', 'n', 'g', '>']) =
      ['<', 's', 't', 'r', 'o', 'n', 'g', '>', '<', 'e', 'm', '>'] ++ x ++
        ['<', '/', 'e', 'm', '>', '<', '/', 's', 't', 'r', 'o', 'n', 'g', '>'] := by
    rw [groupPass]
    apply runPass_id
    rw [occursM_append, occursMA_append]
    have e1 : occursMA matchLiGroup
        ['<', 's', 't', 'r', 'o', 'n', 'g', '>', '<', 'e', 'm', '>']
        (x ++ ['<', '/', 'e', 'm', '>', '<', '/', 's', 't', 'r', 'o', 'n', 'g', '>']) = false := by
      simp [occursMA, matchLiGroup, liOpen, List.isPrefixOf_cons₂]
    have e2 : occursMA matchLiGroup x
        ['<', '/', 'e', 'm', '>', '<', '/', 's', 't', 'r', 'o', 'n', 'g', '>'] = false :=
      occursMA_guard headGuard_matchLiGroup _ hlt
    have e3 : occursM matchLiGroup
        ['<', '/', 'e', 'm', '>', '<', '/', 's', 't', 'r', 'o', 'n', 'g', '>'] = false := by
      decide
    rw [e1, e2, e3]
    rfl
  have s13 : mergePass
      (['<', 's', 't', 'r', 'o', 'n', 'g', '>', '<', 'e', 'm', '>'] ++ x ++
        ['<', '/', 'e', 'm', '>', '<', '/', 's', 't', 'r', 'o', 'n', 'g', '>']) =
      ['<', 's', 't', 'r', 'o', 'n', 'g', '>', '<', 'e', 'm', '>'] ++ x ++
        ['<', '/', 'e', 'm', '>', '<', '/', 's', 't', 'r', 'o', 'n', 'g', '>'] := by
    rw [mergePass]
    apply runPass_id
    rw [occursM_append, occursMA_append]
    have e1 : occursMA (litMatch ulSep ['\n'])
        ['<', 's', 't', 'r', 'o', 'n', 'g', '>', '<', 'e', 'm', '>']
        (x ++ ['<', '/', 'e', 'm', '>', '<', '/', 's', 't', 'r', 'o', 'n', 'g', '>']) = false := by
      simp [occursMA, litMatch, ulSep, ulOpen, ulClose, List.isPrefixOf_cons₂]
    have e2 : occursMA (litMatch ulSep ['\n']) x
        ['<', '/', 'e', 'm', '>', '<', '/', 's', 't', 'r', 'o', 'n', 'g', '>'] = false :=
      occursMA_guard (headGuard_litMatch _ _ _) _ hlt
    have e3 : occursM (litMatch ulSep ['\n'])
        ['<', '/', 'e', 'm', '>', '<', '/', 's', 't', 'r', 'o', 'n', 'g', '>'] = false := by
      decide
    rw [e1, e2, e3]
    rfl
  have s14 : paragraphPass
      (['<', 's', 't', 'r', 'o', 'n', 'g', '>', '<', 'e', 'm', '>'] ++ x ++
        ['<', '/', 'e', 'm', '>', '<', '/', 's', 't', 'r', 'o', 'n', 'g', '>']) =
      pOpen ++ (['<', 's', 't', 'r', 'o', 'n', 'g', '>', '<', 'e', 'm', '>'] ++ x ++
        ['<', '/', 'e', 'm', '>', '<', '/', 's', 't', 'r', 'o', 'n', 'g', '>']) ++ pClose := by
    rw [paragraphPass, runPass_id (occursM_guard (headGuard_litMatch _ _ _) hF1nl)]
  have hW : pOpen ++ (['<', 's', 't', 'r', 'o', 'n', 'g', '>', '<', 'e', 'm', '>'] ++ x ++
      ['<', '/', 'e', 'm', '>', '<', '/', 's', 't', 'r', 'o', 'n', 'g', '>']) ++ pClose =
      ['<', 'p', '>', '<', 's', 't', 'r', 'o', 'n', 'g', '>', '<', 'e', 'm', '>'] ++
        (x ++ ['<', '/', 'e', 'm', '>', '<', '/', 's', 't', 'r', 'o', 'n', 'g', '>',
               '<', '/', 'p', '>']) := by
    simp [pOpen, pClose]
  have hid : ∀ m : Matcher, HeadGuard m '<' →
      occursMA m ['<', 'p', '>', '<', 's', 't', 'r', 'o', 'n', 'g', '>', '<', 'e', 'm', '>']
        (x ++ ['<', '/', 'e', 'm', '>', '<', '/', 's', 't', 'r', 'o', 'n', 'g', '>',
               '<', '/', 'p', '>']) = false →
      occursM m ['<', '/', 'e', 'm', '>', '<', '/', 's', 't', 'r', 'o', 'n', 'g', '>',
               '<', '/', 'p', '>'] = false →
      occursM m (['<', 'p', '>', '<', 's', 't', 'r', 'o', 'n', 'g', '>', '<', 'e', 'm', '>'] ++
        (x ++ ['<', '/', 'e', 'm', '>', '<', '/', 's', 't', 'r', 'o', 'n', 'g', '>',
               '<', '/', 'p', '>'])) = false := by
    intro m hg hA hS
    rw [occursM_append, hA, occursM_append, occursMA_guard hg _ hlt, hS]
    rfl
  have n1 : occursM matchEmptyP
      (['<', 'p', '>', '<', 's', 't', 'r', 'o', 'n', 'g', '>', '<', 'e', 'm', '>'] ++
        (x ++ ['<', '/', 'e', 'm', '>', '<', '/', 's', 't', 'r', 'o', 'n', 'g', '>',
               '<', '/', 'p', '>'])) = false := by
    refine hid _ headGuard_matchEmptyP ?_ (by decide)
    simp [occursMA, matchEmptyP, pOpen, pClose, dropWS, isWS, List.isPrefixOf_cons₂]
  have n2 : occursM matchPH
      (['<', 'p', '>', '<', 's', 't', 'r', 'o', 'n', 'g', '>', '<', 'e', 'm', '>'] ++
        (x ++ ['<', '/', 'e', 'm', '>', '<', '/', 's', 't', 'r', 'o', 'n', 'g', '>',
               '<', '/', 'p', '>'])) = false := by
    refine hid _ headGuard_matchPH ?_ (by decide)
    simp [occursMA, matchPH, orElseM, litMatch, List.isPrefixOf_cons₂]
  have n3 : occursM matchHP
      (['<', 'p', '>', '<', 's', 't', 'r', 'o', 'n', 'g', '>', '<', 'e', 'm', '>'] ++
        (x ++ ['<', '/', 'e', 'm', '>', '<', '/', 's', 't', 'r', 'o', 'n', 'g', '>',
               '<', '/', 'p', '>'])) = false := by
    refine hid _ headGuard_matchHP ?_ (by decide)
    simp [occursMA, matchHP, orElseM, litMatch, List.isPrefixOf_cons₂]
  have n4 : occursM (litMatch (pOpen ++ ['<', 'p', 'r', 'e', '>']) ['<', 'p', 'r', 'e', '>'])
      (['<', 'p', '>', '<', 's', 't', 'r', 'o', 'n', 'g', '>', '<', 'e', 'm', '>'] ++
        (x ++ ['<', '/', 'e', 'm', '>', '<', '/', 's', 't', 'r', 'o', 'n', 'g', '>',
               '<', '/', 'p', '>'])) = false := by
    refine hid _ (headGuard_litMatch _ _ _) ?_ (by decide)
    simp [occursMA, litMatch, pOpen, List.isPrefixOf_cons₂]
  have n5 : occursM (litMatch (['<', '/', 'p', 'r', 'e', '>'] ++ pClose) ['<', '/', 'p', 'r', 'e', '>'])
      (['<', 'p', '>', '<', 's', 't', 'r', 'o', 'n', 'g', '>', '<', 'e', 'm', '>'] ++
        (x ++ ['<', '/', 'e', 'm', '>', '<', '/', 's', 't', 'r', 'o', 'n', 'g', '>',
               '<', '/', 'p', '>'])) = false := by
    refine hid _ (headGuard_litMatch _ _ _) ?_ (by decide)
    simp [occursMA, litMatch, pClose, List.isPrefixOf_cons₂]
  have n6 : occursM (litMatch (pOpen ++ ulOpen) ulOpen)
      (['<', 'p', '>', '<', 's', 't', 'r', 'o', 'n', 'g', '>', '<', 'e', 'm', '>'] ++
        (x ++ ['<', '/', 'e', 'm', '>', '<', '/', 's', 't', 'r', 'o', 'n', 'g', '>',
               '<', '/', 'p', '>'])) = false := by
    refine hid _ (headGuard_litMatch _ _ _) ?_ (by decide)
    simp [occursMA, litMatch, pOpen, ulOpen, List.isPrefixOf_cons₂]
  have n7 : occursM (litMatch (ulClose ++ pClose) ulClose)
      (['<', 'p', '>', '<', 's', 't', 'r', 'o', 'n', 'g', '>', '<', 'e', 'm', '>'] ++
        (x ++ ['<', '/', 'e', 'm', '>', '<', '/', 's', 't', 'r', 'o', 'n', 'g', '>',
               '<', '/', 'p', '>'])) = false := by
    refine hid _ (headGuard_litMatch _ _ _) ?_ (by decide)
    simp [occursMA, litMatch, ulClose, pClose, List.isPrefixOf_cons₂]
  have s15 : normalize
      (pOpen ++ (['<', 's', 't', 'r', 'o', 'n', 'g', '>', '<', 'e', 'm', '>'] ++ x ++
        ['<', '/', 'e', 'm', '>', '<', '/', 's', 't', 'r', 'o', 'n', 'g', '>']) ++ pClose) =
      pOpen ++ (['<', 's', 't', 'r', 'o', 'n', 'g', '>', '<', 'e', 'm', '>'] ++ x ++
        ['<', '/', 'e', 'm', '>', '<', '/', 's', 't', 'r', 'o', 'n', 'g', '>']) ++ pClose := by
    rw [hW, normalize, runPass_id n1, runPass_id n2, runPass_id n3, runPass_id n4,
      runPass_id n5, runPass_id n6, runPass_id n7]
  rw [simple_markdown_to_html, s1, s2, s3, s4, s5, s6, s7, s8, s9, s10, s11, s12,
    s13, s14, s15]

/-- C5, witness: `***bi***` converts to the combined strong-emphasis
element inside the paragraph wrapper. -/
theorem claim_C5_witness :
    simple_markdown_to_html (['*', '*', '*'] ++ (('b' :: 'i' :: []) ++ ['*', '*', '*'])) =
      pOpen ++ (['<', 's', 't', 'r', 'o', 'n', 'g', '>', '<', 'e', 'm', '>'] ++ ('b' :: 'i' :: []) ++
        ['<', '/', 'e', 'm', '>', '<', '/', 's', 't', 'r', 'o', 'n', 'g', '>']) ++ pClose :=
  claim_C5 _ (by decide) (by decide) (by decide) (by decide) (by decide)

/- Firing the list passes. -/

theorem dashLine_fire (t : List Char) :
    dashLine ((['-', ' '] : List Char) ++ t) = liOpen ++ t ++ liClose := by
  rw [dashLine, if_pos (isPrefixOf_self_append _ _), List.drop_left' (by rfl)]

theorem matchLiGroup_fire (body rest : List Char) (hb : noChar '<' body = true) :
    matchLiGroup (liOpen ++ (body ++ (liClose ++ rest))) =
      some (ulOpen ++ liOpen ++ body ++ liClose ++ ulClose, rest) := by
  simp only [matchLiGroup, isPrefixOf_self_append, if_true]
  rw [List.drop_left' (by rfl)]
  rw [show (liClose : List Char) = '<' :: '/' :: 'l' :: 'i' :: '>' :: [] from rfl,
    splitAtStr_hit _ _ body hb]

/- Stages of the three-item list document. -/

theorem splitLines_three_dash (a b c : List Char)
    (ha : noChar '\n' a = true) (hb : noChar '\n' b = true)
    (hc : noChar '\n' c = true) :
    splitLines ((['-', ' '] ++ a) ++ '\n' ::
        ((['-', ' '] ++ b) ++ '\n' :: (['-', ' '] ++ c))) =
      [['-', ' '] ++ a, ['-', ' '] ++ b, ['-', ' '] ++ c] := by
  rw [splitLines_append_nl _ (by simp [noChar_append, noChar, ha]),
    splitLines_append_nl _ (by simp [noChar_append, noChar, hb]),
    splitLines_noNl _ (by simp [noChar_append, noChar, hc])]

theorem dashPass_three (a b c : List Char)
    (ha : noChar '\n' a = true) (hb : noChar '\n' b = true)
    (hc : noChar '\n' c = true) :
    dashPass ((['-', ' '] ++ a) ++ '\n' ::
        ((['-', ' '] ++ b) ++ '\n' :: (['-', ' '] ++ c))) =
      (liOpen ++ a ++ liClose) ++ '\n' ::
        ((liOpen ++ b ++ liClose) ++ '\n' :: (liOpen ++ c ++ liClose)) := by
  rw [dashPass, mapLines, splitLines_three_dash a b c ha hb hc,
    List.map_cons, List.map_cons, List.map_cons, List.map_nil,
    dashLine_fire, dashLine_fire, dashLine_fire]
  rfl

theorem splitLines_three_li (a b c : List Char)
    (ha : noChar '\n' a = true) (hb : noChar '\n' b = true)
    (hc : noChar '\n' c = true) :
    splitLines ((liOpen ++ a ++ liClose) ++ '\n' ::
        ((liOpen ++ b ++ liClose) ++ '\n' :: (liOpen ++ c ++ liClose))) =
      [liOpen ++ a ++ liClose, liOpen ++ b ++ liClose, liOpen ++ c ++ liClose] := by
  rw [splitLines_append_nl _ (by simp [noChar_append, noChar, liOpen, liClose, ha]),
    splitLines_append_nl _ (by simp [noChar_append, noChar, liOpen, liClose, hb]),
    splitLines_noNl _ (by simp [noChar_append, noChar, liOpen, liClose, hc])]

theorem numPass_three (a b c : List Char)
    (ha : noChar '\n' a = true) (hb : noChar '\n' b = true)
    (hc : noChar '\n' c = true) :
    numPass ((liOpen ++ a ++ liClose) ++ '\n' ::
        ((liOpen ++ b ++ liClose) ++ '\n' :: (liOpen ++ c ++ liClose))) =
      (liOpen ++ a ++ liClose) ++ '\n' ::
        ((liOpen ++ b ++ liClose) ++ '\n' :: (liOpen ++ c ++ liClose)) := by
  rw [numPass]
  apply mapLines_id
  intro l hl
  rw [splitLines_three_li a b c ha hb hc] at hl
  simp only [List.mem_cons, List.not_mem_nil, or_false] at hl
  rcases hl with hl | hl | hl
  · rw [hl]; exact numLine_id (numListStart_head _ (by decide))
  · rw [hl]; exact numLine_id (numListStart_head _ (by decide))
  · rw [hl]; exact numLine_id (numListStart_head _ (by decide))

theorem occursMA_singleChar {m : Matcher} {g c : Char} (b : List Char)
    (hm : HeadGuard m g) (hc : c ≠ g) : occursMA m (c :: []) b = false := by
  show ((m (c :: ([] ++ b))).isSome || occursMA m [] b) = false
  rw [matcher_none_of_head _ hm hc]
  rfl

theorem groupPass_three (a b c : List Char)
    (ha : noChar '<' a = true) (hb : noChar '<' b = true)
    (hc : noChar '<' c = true) :
    groupPass ((liOpen ++ a ++ liClose) ++ '\n' ::
        ((liOpen ++ b ++ liClose) ++ '\n' :: (liOpen ++ c ++ liClose))) =
      (ulOpen ++ liOpen ++ a ++ liClose ++ ulClose) ++ '\n' ::
        ((ulOpen ++ liOpen ++ b ++ liClose ++ ulClose) ++ '\n' ::
          (ulOpen ++ liOpen ++ c ++ liClose ++ ulClose)) := by
  have hs0 : (liOpen ++ a ++ liClose) ++ '\n' ::
      ((liOpen ++ b ++ liClose) ++ '\n' :: (liOpen ++ c ++ liClose)) =
      liOpen ++ (a ++ (liClose ++ ('\n' :: (liOpen ++ (b ++ (liClose ++
        ('\n' :: (liOpen ++ (c ++ (liClose ++ ([] : List Char))))))))))) := by
    simp [List.append_assoc]
  rw [groupPass, hs0]
  obtain ⟨f1, hf1b, e1⟩ := runPass_fire_head
    (matchLiGroup_fire a ('\n' :: (liOpen ++ (b ++ (liClose ++
      ('\n' :: (liOpen ++ (c ++ (liClose ++ ([] : List Char))))))))) ha)
    (by simp only [liOpen, liClose, List.length_append, List.length_cons,
      List.length_nil]; omega)
  rw [e1]
  rw [show ('\n' :: (liOpen ++ (b ++ (liClose ++
      ('\n' :: (liOpen ++ (c ++ (liClose ++ ([] : List Char))))))))) =
    ['\n'] ++ (liOpen ++ (b ++ (liClose ++
      ('\n' :: (liOpen ++ (c ++ (liClose ++ ([] : List Char)))))))) from rfl]
  obtain ⟨f2, hf2b, e2⟩ := scanF_fire
    (matchLiGroup_fire b ('\n' :: (liOpen ++ (c ++ (liClose ++ ([] : List Char))))) hb)
    (by simp only [liOpen, liClose, List.length_append, List.length_cons,
      List.length_nil]; omega)
    ['\n'] f1
    (occursMA_singleChar _ headGuard_matchLiGroup (by decide))
    (by simp only [List.length_append, List.length_cons, List.length_nil] at hf1b ⊢
        omega)
  rw [e2]
  rw [show ('\n' :: (liOpen ++ (c ++ (liClose ++ ([] : List Char))))) =
    ['\n'] ++ (liOpen ++ (c ++ (liClose ++ ([] : List Char)))) from rfl]
  obtain ⟨f3, hf3b, e3⟩ := scanF_fire
    (matchLiGroup_fire c ([] : List Char) hc)
    (by simp only [liOpen, liClose, List.length_append, List.length_cons,
      List.length_nil]; omega)
    ['\n'] f2
    (occursMA_singleChar _ headGuard_matchLiGroup (by decide))
    (by simp only [List.length_append, List.length_cons, List.length_nil] at hf2b ⊢
        omega)
  rw [e3, scanF_nil, List.append_nil]
  simp [List.append_assoc]

/- The merge matcher cannot fire inside the fixed tag texts. -/

theorem mergeSep_skip_ulOpen (Z : List Char) :
    occursMA (litMatch ulSep ['\n']) ulOpen Z = false := by
  simp [occursMA, litMatch, ulSep, ulOpen, ulClose, List.isPrefixOf_cons₂]

theorem mergeSep_skip_liOpen (Z : List Char) :
    occursMA (litMatch ulSep ['\n']) liOpen Z = false := by
  simp [occursMA, litMatch, ulSep, liOpen, ulOpen, ulClose, List.isPrefixOf_cons₂]

theorem mergeSep_skip_liClose (Z : List Char) :
    occursMA (litMatch ulSep ['\n']) liClose Z = false := by
  simp [occursMA, litMatch, ulSep, liClose, ulOpen, ulClose, List.isPrefixOf_cons₂]

theorem mergePass_three (a b c : List Char)
    (ha : noChar '<' a = true) (hb : noChar '<' b = true)
    (hc : noChar '<' c = true) :
    mergePass ((ulOpen ++ liOpen ++ a ++ liClose ++ ulClose) ++ '\n' ::
        ((ulOpen ++ liOpen ++ b ++ liClose ++ ulClose) ++ '\n' ::
          (ulOpen ++ liOpen ++ c ++ liClose ++ ulClose))) =
      (ulOpen ++ liOpen ++ a ++ liClose) ++ '\n' ::
        ((liOpen ++ b ++ liClose) ++ '\n' :: ((liOpen ++ c ++ liClose) ++ ulClose)) := by
  have hguard : HeadGuard (litMatch ulSep ['\n']) '<' := headGuard_litMatch _ _ _
  have hshape : (ulOpen ++ liOpen ++ a ++ liClose ++ ulClose) ++ '\n' ::
      ((ulOpen ++ liOpen ++ b ++ liClose ++ ulClose) ++ '\n' ::
        (ulOpen ++ liOpen ++ c ++ liClose ++ ulClose)) =
      (ulOpen ++ (liOpen ++ (a ++ liClose))) ++ (ulSep ++
        (liOpen ++ (b ++ (liClose ++ (ulSep ++
          (liOpen ++ (c ++ (liClose ++ ulClose)))))))) := by
    simp [ulSep, List.append_assoc]
  rw [mergePass, hshape]
  have hA1 : occursMA (litMatch ulSep ['\n']) (ulOpen ++ (liOpen ++ (a ++ liClose)))
      (ulSep ++ (liOpen ++ (b ++ (liClose ++ (ulSep ++
        (liOpen ++ (c ++ (liClose ++ ulClose)))))))) = false := by
    rw [occursMA_append, occursMA_append, occursMA_append,
      mergeSep_skip_ulOpen, mergeSep_skip_liOpen,
      occursMA_guard hguard _ ha, mergeSep_skip_liClose]
    rfl
  obtain ⟨g1, hg1, e1⟩ := runPass_fire
    (litMatch_fire ulSep ['\n'] (liOpen ++ (b ++ (liClose ++ (ulSep ++
      (liOpen ++ (c ++ (liClose ++ ulClose))))))))
    (by simp only [ulSep, liOpen, liClose, ulOpen, ulClose, List.length_append,
      List.length_cons, List.length_nil]; omega)
    hA1
  rw [e1]
  have hshape2 : (liOpen ++ (b ++ (liClose ++ (ulSep ++
      (liOpen ++ (c ++ (liClose ++ ulClose))))))) =
      (liOpen ++ (b ++ liClose)) ++ (ulSep ++ (liOpen ++ (c ++ (liClose ++ ulClose)))) := by
    simp [List.append_assoc]
  rw [hshape2]
  have hA2 : occursMA (litMatch ulSep ['\n']) (liOpen ++ (b ++ liClose))
      (ulSep ++ (liOpen ++ (c ++ (liClose ++ ulClose)))) = false := by
    rw [occursMA_append, occursMA_append, mergeSep_skip_liOpen,
      occursMA_guard hguard _ hb, mergeSep_skip_liClose]
    rfl
  obtain ⟨g2, hg2, e2⟩ := scanF_fire
    (litMatch_fire ulSep ['\n'] (liOpen ++ (c ++ (liClose ++ ulClose))))
    (by simp only [ulSep, liOpen, liClose, ulOpen, ulClose, List.length_append,
      List.length_cons, List.length_nil]; omega)
    (liOpen ++ (b ++ liClose)) g1 hA2
    (by simp only [ulSep, liOpen, liClose, ulOpen, ulClose, List.length_append,
      List.length_cons, List.length_nil] at hg1 ⊢
        omega)
  rw [e2]
  have hB2 : occursM (litMatch ulSep ['\n']) (liOpen ++ (c ++ (liClose ++ ulClose))) = false := by
    rw [occursM_append, occursM_append, mergeSep_skip_liOpen,
      occursMA_guard hguard _ hc]
    rw [show occursM (litMatch ulSep ['\n']) (liClose ++ ulClose) = false from by decide]
    rfl
  rw [scanF_id hB2]
  simp [List.append_assoc]

/-- The blank-line pattern cannot match a single newline followed by a
non-newline character. -/
theorem litMatch_nn_cons (rep : List Char) (d : Char) (t : List Char)
    (hd : d ≠ '\n') :
    litMatch ['\n', '\n'] rep ('\n' :: d :: t) = none := by
  have hbe : (('\n' : Char) == d) = false := by
    simp only [beq_eq_false_iff_ne, ne_eq]
    exact fun h => hd h.symm
  simp [litMatch, List.isPrefixOf_cons₂, hbe]

theorem paragraphPass_three (a b c : List Char)
    (ha : noChar '\n' a = true) (hb : noChar '\n' b = true)
    (hc : noChar '\n' c = true) :
    paragraphPass ((ulOpen ++ liOpen ++ a ++ liClose) ++ '\n' ::
        ((liOpen ++ b ++ liClose) ++ '\n' :: ((liOpen ++ c ++ liClose) ++ ulClose))) =
      pOpen ++ ((ulOpen ++ liOpen ++ a ++ liClose) ++ '\n' ::
        ((liOpen ++ b ++ liClose) ++ '\n' :: ((liOpen ++ c ++ liClose) ++ ulClose))) ++
        pClose := by
  rw [paragraphPass]
  have hg : HeadGuard (litMatch ['\n', '\n'] (pClose ++ pOpen)) '\n' :=
    headGuard_litMatch _ _ _
  have hocc : occursM (litMatch ['\n', '\n'] (pClose ++ pOpen))
      ((ulOpen ++ liOpen ++ a ++ liClose) ++ '\n' ::
        ((liOpen ++ b ++ liClose) ++ '\n' ::
          ((liOpen ++ c ++ liClose) ++ ulClose))) = false := by
    rw [occursM_append,
      occursMA_guard hg _ (by simp [noChar_append, noChar, ulOpen, liOpen, liClose, ha]),
      occursM]
    have h1 : litMatch ['\n', '\n'] (pClose ++ pOpen)
        ('\n' :: ((liOpen ++ b ++ liClose) ++ '\n' ::
          ((liOpen ++ c ++ liClose) ++ ulClose))) = none :=
      litMatch_nn_cons _ '<' _ (by decide)
    rw [h1, occursM_append,
      occursMA_guard hg _ (by simp [noChar_append, noChar, liOpen, liClose, hb]),
      occursM]
    have h2 : litMatch ['\n', '\n'] (pClose ++ pOpen)
        ('\n' :: ((liOpen ++ c ++ liClose) ++ ulClose)) = none :=
      litMatch_nn_cons _ '<' _ (by decide)
    rw [h2,
      occursM_guard hg (by simp [noChar_append, noChar, liOpen, liClose, ulClose, hc])]
    rfl
  rw [runPass_id hocc]

theorem normalize_three (a b c : List Char)
    (ha : noChar '<' a = true) (hb : noChar '<' b = true)
    (hc : noChar '<' c = true) :
    normalize (pOpen ++ ((ulOpen ++ liOpen ++ a ++ liClose) ++ '\n' ::
        ((liOpen ++ b ++ liClose) ++ '\n' :: ((liOpen ++ c ++ liClose) ++ ulClose))) ++
        pClose) =
      (ulOpen ++ liOpen ++ a ++ liClose) ++ '\n' ::
        ((liOpen ++ b ++ liClose) ++ '\n' :: ((liOpen ++ c ++ liClose) ++ ulClose)) := by
  have hW : pOpen ++ ((ulOpen ++ liOpen ++ a ++ liClose) ++ '\n' ::
      ((liOpen ++ b ++ liClose) ++ '\n' :: ((liOpen ++ c ++ liClose) ++ ulClose))) ++
      pClose =
      ['<', 'p', '>', '<', 'u', 'l', '>', '<', 'l', 'i', '>'] ++ (a ++
        (['<', '/', 'l', 'i', '>', '\n', '<', 'l', 'i', '>'] ++ (b ++
          (['<', '/', 'l', 'i', '>', '\n', '<', 'l', 'i', '>'] ++ (c ++
            ['<', '/', 'l', 'i', '>', '<', '/', 'u', 'l', '>', '<', '/', 'p', '>']))))) := by
    simp [pOpen, pClose, ulOpen, ulClose, liOpen, liClose, List.append_assoc]
  rw [hW, normalize]
  have decompose : ∀ m : Matcher, HeadGuard m '<' →
      (∀ Z, occursMA m ['<', 'p', '>', '<', 'u', 'l', '>', '<', 'l', 'i', '>'] Z = false) →
      (∀ Z, occursMA m ['<', '/', 'l', 'i', '>', '\n', '<', 'l', 'i', '>'] Z = false) →
      occursM m ['<', '/', 'l', 'i', '>', '<', '/', 'u', 'l', '>', '<', '/', 'p', '>'] = false →
      occursM m
        (['<', 'p', '>', '<', 'u', 'l', '>', '<', 'l', 'i', '>'] ++ (a ++
          (['<', '/', 'l', 'i', '>', '\n', '<', 'l', 'i', '>'] ++ (b ++
            (['<', '/', 'l', 'i', '>', '\n', '<', 'l', 'i', '>'] ++ (c ++
              ['<', '/', 'l', 'i', '>', '<', '/', 'u', 'l', '>', '<', '/', 'p', '>'])))))) =
        false := by
    intro m hg hKP hK2 hK4
    rw [occursM_append, hKP, occursM_append, occursMA_guard hg _ ha,
      occursM_append, hK2, occursM_append, occursMA_guard hg _ hb,
      occursM_append, hK2, occursM_append, occursMA_guard hg _ hc, hK4]
    rfl
  have hR1 := decompose _ headGuard_matchEmptyP
    (fun Z => by
      simp [occursMA, matchEmptyP, pOpen, pClose, dropWS, isWS, List.isPrefixOf_cons₂])
    (fun Z => by
      simp [occursMA, matchEmptyP, pOpen, pClose, dropWS, isWS, List.isPrefixOf_cons₂])
    (by decide)
  have hR2 := decompose _ headGuard_matchPH
    (fun Z => by simp [occursMA, matchPH, orElseM, litMatch, List.isPrefixOf_cons₂])
    (fun Z => by simp [occursMA, matchPH, orElseM, litMatch, List.isPrefixOf_cons₂])
    (by decide)
  have hR3 := decompose _ headGuard_matchHP
    (fun Z => by simp [occursMA, matchHP, orElseM, litMatch, List.isPrefixOf_cons₂])
    (fun Z => by simp [occursMA, matchHP, orElseM, litMatch, List.isPrefixOf_cons₂])
    (by decide)
  have hR4 := decompose
    (litMatch (pOpen ++ ['<', 'p', 'r', 'e', '>']) ['<', 'p', 'r', 'e', '>'])
    (headGuard_litMatch _ _ _)
    (fun Z => by simp [occursMA, litMatch, pOpen, List.isPrefixOf_cons₂])
    (fun Z => by simp [occursMA, litMatch, pOpen, List.isPrefixOf_cons₂])
    (by decide)
  have hR5 := decompose
    (litMatch (['<', '/', 'p', 'r', 'e', '>'] ++ pClose) ['<', '/', 'p', 'r', 'e', '>'])
    (headGuard_litMatch _ _ _)
    (fun Z => by simp [occursMA, litMatch, pClose, List.isPrefixOf_cons₂])
    (fun Z => by simp [occursMA, litMatch, pClose, List.isPrefixOf_cons₂])
    (by decide)
  rw [runPass_id hR1, runPass_id hR2, runPass_id hR3, runPass_id hR4, runPass_id hR5]
  have h6 : runPass (litMatch (pOpen ++ ulOpen) ulOpen)
      (['<', 'p', '>', '<', 'u', 'l', '>', '<', 'l', 'i', '>'] ++ (a ++
        (['<', '/', 'l', 'i', '>', '\n', '<', 'l', 'i', '>'] ++ (b ++
          (['<', '/', 'l', 'i', '>', '\n', '<', 'l', 'i', '>'] ++ (c ++
            ['<', '/', 'l', 'i', '>', '<', '/', 'u', 'l', '>', '<', '/', 'p', '>'])))))) =
      ulOpen ++ (['<', 'l', 'i', '>'] ++ (a ++
        (['<', '/', 'l', 'i', '>', '\n', '<', 'l', 'i', '>'] ++ (b ++
          (['<', '/', 'l', 'i', '>', '\n', '<', 'l', 'i', '>'] ++ (c ++
            ['<', '/', 'l', 'i', '>', '<', '/', 'u', 'l', '>', '<', '/', 'p', '>'])))))) := by
    rw [show (['<', 'p', '>', '<', 'u', 'l', '>', '<', 'l', 'i', '>'] : List Char) ++ (a ++
        (['<', '/', 'l', 'i', '>', '\n', '<', 'l', 'i', '>'] ++ (b ++
          (['<', '/', 'l', 'i', '>', '\n', '<', 'l', 'i', '>'] ++ (c ++
            ['<', '/', 'l', 'i', '>', '<', '/', 'u', 'l', '>', '<', '/', 'p', '>']))))) =
      (pOpen ++ ulOpen) ++ (['<', 'l', 'i', '>'] ++ (a ++
        (['<', '/', 'l', 'i', '>', '\n', '<', 'l', 'i', '>'] ++ (b ++
          (['<', '/', 'l', 'i', '>', '\n', '<', 'l', 'i', '>'] ++ (c ++
            ['<', '/', 'l', 'i', '>', '<', '/', 'u', 'l', '>', '<', '/', 'p', '>']))))))
      from by simp [pOpen, ulOpen, List.append_assoc]]
    obtain ⟨f6, hf6, e6⟩ := runPass_fire_head
      (litMatch_fire (pOpen ++ ulOpen) ulOpen
        (['<', 'l', 'i', '>'] ++ (a ++
          (['<', '/', 'l', 'i', '>', '\n', '<', 'l', 'i', '>'] ++ (b ++
            (['<', '/', 'l', 'i', '>', '\n', '<', 'l', 'i', '>'] ++ (c ++
              ['<', '/', 'l', 'i', '>', '<', '/', 'u', 'l', '>', '<', '/', 'p', '>'])))))))
      (by simp only [pOpen, ulOpen, List.length_append, List.length_cons,
        List.length_nil]; omega)
    rw [e6]
    have hg6 : HeadGuard (litMatch (pOpen ++ ulOpen) ulOpen) '<' :=
      headGuard_litMatch _ _ _
    have kLi : ∀ Z, occursMA (litMatch (pOpen ++ ulOpen) ulOpen)
        ['<', 'l', 'i', '>'] Z = false := fun Z => by
      simp [occursMA, litMatch, pOpen, ulOpen, List.isPrefixOf_cons₂]
    have kK2 : ∀ Z, occursMA (litMatch (pOpen ++ ulOpen) ulOpen)
        ['<', '/', 'l', 'i', '>', '\n', '<', 'l', 'i', '>'] Z = false := fun Z => by
      simp [occursMA, litMatch, pOpen, ulOpen, List.isPrefixOf_cons₂]
    have kK4 : occursM (litMatch (pOpen ++ ulOpen) ulOpen)
        ['<', '/', 'l', 'i', '>', '<', '/', 'u', 'l', '>', '<', '/', 'p', '>'] = false := by
      decide
    have hrest : occursM (litMatch (pOpen ++ ulOpen) ulOpen)
        (['<', 'l', 'i', '>'] ++ (a ++
          (['<', '/', 'l', 'i', '>', '\n', '<', 'l', 'i', '>'] ++ (b ++
            (['<', '/', 'l', 'i', '>', '\n', '<', 'l', 'i', '>'] ++ (c ++
              ['<', '/', 'l', 'i', '>', '<', '/', 'u', 'l', '>', '<', '/', 'p', '>'])))))) =
        false := by
      rw [occursM_append, kLi, occursM_append, occursMA_guard hg6 _ ha,
        occursM_append, kK2, occursM_append, occursMA_guard hg6 _ hb,
        occursM_append, kK2, occursM_append, occursMA_guard hg6 _ hc, kK4]
      rfl
    rw [scanF_id hrest]
  rw [h6]
  have hshape7 : (ulOpen : List Char) ++ (['<', 'l', 'i', '>'] ++ (a ++
      (['<', '/', 'l', 'i', '>', '\n', '<', 'l', 'i', '>'] ++ (b ++
        (['<', '/', 'l', 'i', '>', '\n', '<', 'l', 'i', '>'] ++ (c ++
          ['<', '/', 'l', 'i', '>', '<', '/', 'u', 'l', '>', '<', '/', 'p', '>'])))))) =
      (['<', 'u', 'l', '>', '<', 'l', 'i', '>'] ++ (a ++
        (['<', '/', 'l', 'i', '>', '\n', '<', 'l', 'i', '>'] ++ (b ++
          (['<', '/', 'l', 'i', '>', '\n', '<', 'l', 'i', '>'] ++ (c ++
            ['<', '/', 'l', 'i', '>'])))))) ++ ((ulClose ++ pClose) ++ []) := by
    simp [ulOpen, ulClose, pClose, List.append_assoc]
  rw [hshape7]
  have hg7 : HeadGuard (litMatch (ulClose ++ pClose) ulClose) '<' :=
    headGuard_litMatch _ _ _
  have k1 : ∀ Z, occursMA (litMatch (ulClose ++ pClose) ulClose)
      ['<', 'u', 'l', '>', '<', 'l', 'i', '>'] Z = false := fun Z => by
    simp [occursMA, litMatch, ulClose, pClose, List.isPrefixOf_cons₂]
  have k2 : ∀ Z, occursMA (litMatch (ulClose ++ pClose) ulClose)
      ['<', '/', 'l', 'i', '>', '\n', '<', 'l', 'i', '>'] Z = false := fun Z => by
    simp [occursMA, litMatch, ulClose, pClose, List.isPrefixOf_cons₂]
  have k3 : ∀ Z, occursMA (litMatch (ulClose ++ pClose) ulClose)
      ['<', '/', 'l', 'i', '>'] Z = false := fun Z => by
    simp [occursMA, litMatch, ulClose, pClose, List.isPrefixOf_cons₂]
  have hA7 : occursMA (litMatch (ulClose ++ pClose) ulClose)
      (['<', 'u', 'l', '>', '<', 'l', 'i', '>'] ++ (a ++
        (['<', '/', 'l', 'i', '>', '\n', '<', 'l', 'i', '>'] ++ (b ++
          (['<', '/', 'l', 'i', '>', '\n', '<', 'l', 'i', '>'] ++ (c ++
            ['<', '/', 'l', 'i', '>']))))))
      ((ulClose ++ pClose) ++ []) = false := by
    rw [occursMA_append, k1, occursMA_append, occursMA_guard hg7 _ ha,
      occursMA_append, k2, occursMA_append, occursMA_guard hg7 _ hb,
      occursMA_append, k2, occursMA_append, occursMA_guard hg7 _ hc, k3]
    rfl
  obtain ⟨f7, hf7, e7⟩ := runPass_fire
    (litMatch_fire (ulClose ++ pClose) ulClose [])
    (by simp only [ulClose, pClose, List.length_append, List.length_cons,
      List.length_nil]; omega)
    hA7
  rw [e7, scanF_nil, List.append_nil]
  simp [ulOpen, ulClose, liOpen, liClose, List.append_assoc]

/-- C6: list grouping.  A document of three consecutive dash-prefixed
lines (plain item texts) converts to exactly one list container wrapping
exactly three list items - not three separate containers: each item is
first wrapped in its own container by the grouping pass, and the merge
step collapses the two single-newline boundaries. -/
theorem claim_C6 (a b c : List Char)
    (ha1 : noChar '\n' a = true) (ha2 : noChar '*' a = true)
    (ha3 : noChar '`' a = true) (ha4 : noChar '[' a = true)
    (ha5 : noChar '<' a = true)
    (hb1 : noChar '\n' b = true) (hb2 : noChar '*' b = true)
    (hb3 : noChar '`' b = true) (hb4 : noChar '[' b = true)
    (hb5 : noChar '<' b = true)
    (hc1 : noChar '\n' c = true) (hc2 : noChar '*' c = true)
    (hc3 : noChar '`' c = true) (hc4 : noChar '[' c = true)
    (hc5 : noChar '<' c = true) :
    simple_markdown_to_html ((['-', ' '] ++ a) ++ '\n' ::
        ((['-', ' '] ++ b) ++ '\n' :: (['-', ' '] ++ c))) =
      (ulOpen ++ liOpen ++ a ++ liClose) ++ '\n' ::
        ((liOpen ++ b ++ liClose) ++ '\n' :: ((liOpen ++ c ++ liClose) ++ ulClose)) := by
  have hsplit := splitLines_three_dash a b c ha1 hb1 hc1
  have s1 : fencePass ((['-', ' '] ++ a) ++ '\n' ::
      ((['-', ' '] ++ b) ++ '\n' :: (['-', ' '] ++ c))) =
      (['-', ' '] ++ a) ++ '\n' :: ((['-', ' '] ++ b) ++ '\n' :: (['-', ' '] ++ c)) := by
    rw [fencePass]
    exact runPass_id (occursM_guard headGuard_matchFence
      (by simp [noChar_append, noChar, ha3, hb3, hc3]))
  have hhead : ∀ marks openT closeT,
      (marks = ['#', '#', '#', ' '] ∨ marks = ['#', '#', ' '] ∨ marks = ['#', ' ']) →
      mapLines (headerLine marks openT closeT)
        ((['-', ' '] ++ a) ++ '\n' :: ((['-', ' '] ++ b) ++ '\n' :: (['-', ' '] ++ c))) =
      (['-', ' '] ++ a) ++ '\n' :: ((['-', ' '] ++ b) ++ '\n' :: (['-', ' '] ++ c)) := by
    intro marks openT closeT hm
    apply mapLines_id
    intro l hl
    rw [hsplit] at hl
    simp only [List.mem_cons, List.not_mem_nil, or_false] at hl
    rcases hm with hm | hm | hm <;> subst hm <;>
      rcases hl with hl | hl | hl <;> rw [hl] <;>
      exact headerLine_id (isPrefixOf_cons_neq _ _ (by decide))
  have s2 : headerPass3 ((['-', ' '] ++ a) ++ '\n' ::
      ((['-', ' '] ++ b) ++ '\n' :: (['-', ' '] ++ c))) =
      (['-', ' '] ++ a) ++ '\n' :: ((['-', ' '] ++ b) ++ '\n' :: (['-', ' '] ++ c)) := by
    rw [headerPass3]
    exact hhead _ _ _ (Or.inl rfl)
  have s3 : headerPass2 ((['-', ' '] ++ a) ++ '\n' ::
      ((['-', ' '] ++ b) ++ '\n' :: (['-', ' '] ++ c))) =
      (['-', ' '] ++ a) ++ '\n' :: ((['-', ' '] ++ b) ++ '\n' :: (['-', ' '] ++ c)) := by
    rw [headerPass2]
    exact hhead _ _ _ (Or.inr (Or.inl rfl))
  have s4 : headerPass1 ((['-', ' '] ++ a) ++ '\n' ::
      ((['-', ' '] ++ b) ++ '\n' :: (['-', ' '] ++ c))) =
      (['-', ' '] ++ a) ++ '\n' :: ((['-', ' '] ++ b) ++ '\n' :: (['-', ' '] ++ c)) := by
    rw [headerPass1]
    exact hhead _ _ _ (Or.inr (Or.inr rfl))
  have hnostar : noChar '*' ((['-', ' '] ++ a) ++ '\n' ::
      ((['-', ' '] ++ b) ++ '\n' :: (['-', ' '] ++ c))) = true := by
    simp [noChar_append, noChar, ha2, hb2, hc2]
  have s5 : emphasisPass3 ((['-', ' '] ++ a) ++ '\n' ::
      ((['-', ' '] ++ b) ++ '\n' :: (['-', ' '] ++ c))) =
      (['-', ' '] ++ a) ++ '\n' :: ((['-', ' '] ++ b) ++ '\n' :: (['-', ' '] ++ c)) := by
    rw [emphasisPass3]
    exact runPass_id (occursM_guard (headGuard_matchSpan '*' _ _ _) hnostar)
  have s6 : emphasisPass2 ((['-', ' '] ++ a) ++ '\n' ::
      ((['-', ' '] ++ b) ++ '\n' :: (['-', ' '] ++ c))) =
      (['-', ' '] ++ a) ++ '\n' :: ((['-', ' '] ++ b) ++ '\n' :: (['-', ' '] ++ c)) := by
    rw [emphasisPass2]
    exact runPass_id (occursM_guard (headGuard_matchSpan '*' _ _ _) hnostar)
  have s7 : emphasisPass1 ((['-', ' '] ++ a) ++ '\n' ::
      ((['-', ' '] ++ b) ++ '\n' :: (['-', ' '] ++ c))) =
      (['-', ' '] ++ a) ++ '\n' :: ((['-', ' '] ++ b) ++ '\n' :: (['-', ' '] ++ c)) := by
    rw [emphasisPass1]
    exact runPass_id (occursM_guard (headGuard_matchSpan '*' _ _ _) hnostar)
  have s8 : codePass ((['-', ' '] ++ a) ++ '\n' ::
      ((['-', ' '] ++ b) ++ '\n' :: (['-', ' '] ++ c))) =
      (['-', ' '] ++ a) ++ '\n' :: ((['-', ' '] ++ b) ++ '\n' :: (['-', ' '] ++ c)) := by
    rw [codePass]
    exact runPass_id (occursM_guard (headGuard_matchSpan '`' _ _ _)
      (by simp [noChar_append, noChar, ha3, hb3, hc3]))
  have s9 : linkPass ((['-', ' '] ++ a) ++ '\n' ::
      ((['-', ' '] ++ b) ++ '\n' :: (['-', ' '] ++ c))) =
      (['-', ' '] ++ a) ++ '\n' :: ((['-', ' '] ++ b) ++ '\n' :: (['-', ' '] ++ c)) := by
    rw [linkPass]
    exact runPass_id (occursM_guard headGuard_matchLink
      (by simp [noChar_append, noChar, ha4, hb4, hc4]))
  rw [simple_markdown_to_html, s1, s2, s3, s4, s5, s6, s7, s8, s9,
    dashPass_three a b c ha1 hb1 hc1, numPass_three a b c ha1 hb1 hc1,
    groupPass_three a b c ha5 hb5 hc5, mergePass_three a b c ha5 hb5 hc5,
    paragraphPass_three a b c ha1 hb1 hc1, normalize_three a b c ha5 hb5 hc5]

/-- C6, witness: the document `- a\n- b\n- c` yields one container with
three items. -/
theorem claim_C6_witness :
    simple_markdown_to_html ((['-', ' '] ++ ('a' :: [])) ++ '\n' ::
        ((['-', ' '] ++ ('b' :: [])) ++ '\n' :: (['-', ' '] ++ ('c' :: [])))) =
      (ulOpen ++ liOpen ++ ('a' :: []) ++ liClose) ++ '\n' ::
        ((liOpen ++ ('b' :: []) ++ liClose) ++ '\n' ::
          ((liOpen ++ ('c' :: []) ++ liClose) ++ ulClose)) :=
  claim_C6 _ _ _ (by decide) (by decide) (by decide) (by decide) (by decide)
    (by decide) (by decide) (by decide) (by decide) (by decide)
    (by decide) (by decide) (by decide) (by decide) (by decide)

/- Whitespace-only documents. -/

theorem noChar_of_allWS {g : Char} (hg : isWS g = false) :
    ∀ {s : List Char}, allWS s = true → noChar g s = true := by
  intro s
  induction s with
  | nil => intro _; rfl
  | cons c t ih =>
    intro hs
    obtain ⟨hc, ht⟩ := allWS_cons hs
    have hne : c ≠ g := fun h => by rw [h] at hc; rw [hc] at hg; exact absurd hg (by simp)
    simp [noChar, hne, ih ht]

theorem isDigit_false_of_isWS {c : Char} (h : isWS c = true) : isDigitNd c = false := by
  rw [isWS] at h
  simp only [Bool.or_eq_true, decide_eq_true_eq] at h
  rcases h with ((((((((((((((((((((((((((((h | h) | h) | h) | h) | h) | h) | h) | h) | h)
    | h) | h) | h) | h) | h) | h) | h) | h) | h) | h) | h) | h) | h) | h) | h) | h) | h)
    | h) | h) <;> subst h <;> decide

theorem allWS_splitLines : ∀ s, allWS s = true → ∀ l ∈ splitLines s, allWS l = true := by
  intro s
  induction s with
  | nil =>
    intro _ l hl
    rw [show splitLines [] = [[]] from rfl, List.mem_singleton] at hl
    subst hl
    rfl
  | cons c t ih =>
    intro hs l hl
    obtain ⟨hc, ht⟩ := allWS_cons hs
    by_cases hnl : c = '\n'
    · rw [splitLines, if_pos hnl, List.mem_cons] at hl
      rcases hl with hl | hl
      · subst hl; rfl
      · exact ih ht l hl
    · cases hL : splitLines t with
      | nil => exact absurd hL (splitLines_ne_nil t)
      | cons l0 ls =>
        rw [splitLines, if_neg hnl, hL, List.mem_cons] at hl
        rcases hl with hl | hl
        · subst hl
          have h0 : allWS l0 = true := ih ht l0 (by rw [hL]; exact List.mem_cons_self _ _)
          simp [allWS, hc, h0]
        · exact ih ht l (by rw [hL]; exact List.mem_cons_of_mem _ hl)

theorem numListStart_ws {l : List Char} (h : allWS l = true) : numListStart l = false := by
  cases l with
  | nil => rfl
  | cons c t => exact numListStart_head t (isDigit_false_of_isWS (allWS_cons h).1)

/-- The empty-paragraph matcher consumes a whole whitespace-only
paragraph block. -/
theorem matchEmptyP_fire (w M : List Char) (hw : allWS w = true) :
    matchEmptyP (pOpen ++ (w ++ (pClose ++ M))) = some ([], M) := by
  simp only [matchEmptyP, isPrefixOf_self_append, if_true]
  rw [List.drop_left' (by rfl), dropWS_ws_append w hw]
  have hdws : dropWS (pClose ++ M) = pClose ++ M := dropWS_head_nonws _ (by decide)
  rw [hdws]
  simp only [isPrefixOf_self_append, if_true]
  rw [List.drop_left' (by rfl)]

/-- The paragraph pass turns a whitespace-only document into a
concatenation of whitespace-only paragraph blocks. -/
theorem wsBlocks : ∀ (fuel : Nat) (s : List Char), s.length ≤ fuel → allWS s = true →
    ∃ w L, allWS w = true ∧ (∀ u ∈ L, allWS u = true) ∧
      pOpen ++ scanF (litMatch ['\n', '\n'] (pClose ++ pOpen)) fuel s ++ pClose =
        mkBlocks (w :: L) := by
  intro fuel
  induction fuel with
  | zero =>
    intro s hlen _
    have hs : s = [] := List.length_eq_zero.mp (Nat.le_zero.mp hlen)
    subst hs
    exact ⟨[], [], rfl, by intro u hu; simp at hu, by simp [mkBlocks, scanF_nil]⟩
  | succ f ih =>
    intro s hlen hws
    cases s with
    | nil =>
      refine ⟨[], [], rfl, by intro u hu; simp at hu, ?_⟩
      rw [scanF_nil]
      simp [mkBlocks]
    | cons c t =>
      obtain ⟨hc, ht⟩ := allWS_cons hws
      by_cases hp : (['\n', '\n'] : List Char).isPrefixOf (c :: t) = true
      · rw [List.isPrefixOf_cons₂] at hp
        have hc2 : ('\n' : Char) = c := beq_iff_eq.mp ((Bool.and_eq_true _ _).mp hp).1
        have hp2 := ((Bool.and_eq_true _ _).mp hp).2
        cases t with
        | nil => simp at hp2
        | cons d t2 =>
          rw [List.isPrefixOf_cons₂] at hp2
          have hd : ('\n' : Char) = d := beq_iff_eq.mp ((Bool.and_eq_true _ _).mp hp2).1
          have hfire : litMatch ['\n', '\n'] (pClose ++ pOpen) (c :: d :: t2) =
              some (pClose ++ pOpen, t2) := by
            rw [litMatch, if_pos (by rw [← hc2, ← hd]; exact isPrefixOf_self_append _ _)]
            rfl
          rw [scanF_cons_some f hfire]
          have ht2 : allWS t2 = true := (allWS_cons (allWS_cons hws).2).2
          obtain ⟨w, L, hw, hL, heq⟩ := ih t2
            (by simp only [List.length_cons] at hlen; omega) ht2
          refine ⟨[], w :: L, rfl, ?_, ?_⟩
          · intro u hu
            rcases List.mem_cons.mp hu with hu | hu
            · subst hu; exact hw
            · exact hL u hu
          · rw [show mkBlocks ([] :: w :: L) =
              pOpen ++ [] ++ pClose ++ mkBlocks (w :: L) from rfl, ← heq]
            simp [List.append_assoc]
      · have hnone : litMatch ['\n', '\n'] (pClose ++ pOpen) (c :: t) = none := by
          rw [litMatch, if_neg (by simp [hp])]
        rw [scanF_cons_none f hnone]
        obtain ⟨w, L, hw, hL, heq⟩ := ih t
          (by simp only [List.length_cons] at hlen; omega) ht
        refine ⟨c :: w, L, by simp [allWS, hc, hw], hL, ?_⟩
        rw [show mkBlocks ((c :: w) :: L) =
          pOpen ++ (c :: w) ++ pClose ++ mkBlocks L from rfl]
        rw [show mkBlocks (w :: L) = pOpen ++ w ++ pClose ++ mkBlocks L from rfl] at heq
        simp only [List.append_assoc, List.cons_append] at heq ⊢
        have h2 := List.append_cancel_left heq
        rw [h2]

/-- The empty-paragraph cleanup erases a concatenation of whitespace-only
paragraph blocks completely. -/
theorem R1_blocks : ∀ (L : List (List Char)) (fuel : Nat),
    (∀ w ∈ L, allWS w = true) → (mkBlocks L).length ≤ fuel →
    scanF matchEmptyP fuel (mkBlocks L) = [] := by
  intro L
  induction L with
  | nil => intro fuel _ _; exact scanF_nil _ _
  | cons w L2 ih =>
    intro fuel hL hlen
    have hw : allWS w = true := hL w (List.mem_cons_self _ _)
    have hshape : mkBlocks (w :: L2) = [] ++ (pOpen ++ (w ++ (pClose ++ mkBlocks L2))) := by
      rw [show mkBlocks (w :: L2) = pOpen ++ w ++ pClose ++ mkBlocks L2 from rfl]
      simp [List.append_assoc]
    rw [hshape] at hlen ⊢
    obtain ⟨f2, hf2, e⟩ := scanF_fire (matchEmptyP_fire w (mkBlocks L2) hw)
      (by simp only [pOpen, pClose, List.length_append, List.length_cons,
        List.length_nil]; omega)
      [] fuel rfl hlen
    rw [e, List.nil_append, List.nil_append]
    exact ih f2 (fun u hu => hL u (List.mem_cons_of_mem _ hu)) hf2

/-- C8: blank input.  Every document consisting only of whitespace
characters (including the empty document) converts to the empty fragment:
all rewriting passes leave it unchanged, the paragraph pass wraps its
blank-line-separated pieces into whitespace-only paragraph blocks, and the
empty-paragraph cleanup removes every one of them. -/
theorem claim_C8 (doc : List Char) (h : allWS doc = true) :
    simple_markdown_to_html doc = [] := by
  have hlines := allWS_splitLines doc h
  have s1 : fencePass doc = doc := by
    rw [fencePass]
    exact runPass_id (occursM_guard headGuard_matchFence (noChar_of_allWS (by decide) h))
  have s2 : headerPass3 doc = doc := by
    rw [headerPass3]
    apply mapLines_id
    intro l hl
    exact headerLine_id (isPrefixOf_none_of_noChar _ _
      (noChar_of_allWS (by decide) (hlines l hl)))
  have s3 : headerPass2 doc = doc := by
    rw [headerPass2]
    apply mapLines_id
    intro l hl
    exact headerLine_id (isPrefixOf_none_of_noChar _ _
      (noChar_of_allWS (by decide) (hlines l hl)))
  have s4 : headerPass1 doc = doc := by
    rw [headerPass1]
    apply mapLines_id
    intro l hl
    exact headerLine_id (isPrefixOf_none_of_noChar _ _
      (noChar_of_allWS (by decide) (hlines l hl)))
  have s5 : emphasisPass3 doc = doc := by
    rw [emphasisPass3]
    exact runPass_id (occursM_guard (headGuard_matchSpan '*' _ _ _)
      (noChar_of_allWS (by decide) h))
  have s6 : emphasisPass2 doc = doc := by
    rw [emphasisPass2]
    exact runPass_id (occursM_guard (headGuard_matchSpan '*' _ _ _)
      (noChar_of_allWS (by decide) h))
  have s7 : emphasisPass1 doc = doc := by
    rw [emphasisPass1]
    exact runPass_id (occursM_guard (headGuard_matchSpan '*' _ _ _)
      (noChar_of_allWS (by decide) h))
  have s8 : codePass doc = doc := by
    rw [codePass]
    exact runPass_id (occursM_guard (headGuard_matchSpan '`' _ _ _)
      (noChar_of_allWS (by decide) h))
  have s9 : linkPass doc = doc := by
    rw [linkPass]
    exact runPass_id (occursM_guard headGuard_matchLink (noChar_of_allWS (by decide) h))
  have s10 : dashPass doc = doc := by
    rw [dashPass]
    apply mapLines_id
    intro l hl
    exact dashLine_id (isPrefixOf_none_of_noChar _ _
      (noChar_of_allWS (by decide) (hlines l hl)))
  have s11 : numPass doc = doc := by
    rw [numPass]
    apply mapLines_id
    intro l hl
    exact numLine_id (numListStart_ws (hlines l hl))
  have s12 : groupPass doc = doc := by
    rw [groupPass]
    exact runPass_id (occursM_guard headGuard_matchLiGroup (noChar_of_allWS (by decide) h))
  have s13 : mergePass doc = doc := by
    rw [mergePass]
    exact runPass_id (occursM_guard (headGuard_litMatch _ _ _)
      (noChar_of_allWS (by decide) h))
  rw [simple_markdown_to_html, s1, s2, s3, s4, s5, s6, s7, s8, s9, s10, s11, s12, s13,
    paragraphPass, runPass]
  obtain ⟨w, L, hw, hL, heq⟩ := wsBlocks doc.length doc (Nat.le_refl _) h
  rw [heq, normalize]
  have hR1 : runPass matchEmptyP (mkBlocks (w :: L)) = [] := by
    rw [runPass]
    refine R1_blocks (w :: L) _ ?_ (Nat.le_refl _)
    intro u hu
    rcases List.mem_cons.mp hu with hu | hu
    · subst hu; exact hw
    · exact hL u hu
  rw [hR1]
  rfl

/-- C8, witness: the whitespace-only document made of a newline, a tab and
a newline converts to the empty fragment. -/
theorem claim_C8_witness :
    simple_markdown_to_html ('\n' :: '\t' :: '\n' :: []) = [] :=
  claim_C8 _ (by decide)

/-- C7, amended: pass-through.  A document carrying no recognized markup -
no inline marker characters, no tag-opening character, no blank-line
boundary, no line-anchored marker on any line - and at least one
non-whitespace character converts to exactly one paragraph element
wrapping the input text unchanged.  (The claim as stated fails on
whitespace-only input, see the counterexample, and on literal tag text,
which the grouping and cleanup passes recognize.) -/
theorem claim_C7 (doc : List Char) (h : plainDoc doc = true) :
    simple_markdown_to_html doc = pOpen ++ doc ++ pClose := by
  rw [plainDoc] at h
  simp only [Bool.and_eq_true, Bool.not_eq_true', List.all_eq_true] at h
  obtain ⟨⟨⟨⟨⟨⟨h1, h2⟩, h3⟩, h4⟩, h5⟩, h6⟩, h7⟩ := h
  have s1 : fencePass doc = doc := by
    rw [fencePass]
    exact runPass_id (occursM_guard headGuard_matchFence h3)
  have s2 : headerPass3 doc = doc := by
    rw [headerPass3]
    apply mapLines_id
    intro l hl
    have hline := h7 l hl
    simp only [lineOK, Bool.and_eq_true, Bool.not_eq_true'] at hline
    exact headerLine_id hline.1.1.2
  have s3 : headerPass2 doc = doc := by
    rw [headerPass2]
    apply mapLines_id
    intro l hl
    have hline := h7 l hl
    simp only [lineOK, Bool.and_eq_true, Bool.not_eq_true'] at hline
    exact headerLine_id hline.1.1.1.2
  have s4 : headerPass1 doc = doc := by
    rw [headerPass1]
    apply mapLines_id
    intro l hl
    have hline := h7 l hl
    simp only [lineOK, Bool.and_eq_true, Bool.not_eq_true'] at hline
    exact headerLine_id hline.1.1.1.1
  have s5 : emphasisPass3 doc = doc := by
    rw [emphasisPass3]
    exact runPass_id (occursM_guard (headGuard_matchSpan '*' _ _ _) h2)
  have s6 : emphasisPass2 doc = doc := by
    rw [emphasisPass2]
    exact runPass_id (occursM_guard (headGuard_matchSpan '*' _ _ _) h2)
  have s7 : emphasisPass1 doc = doc := by
    rw [emphasisPass1]
    exact runPass_id (occursM_guard (headGuard_matchSpan '*' _ _ _) h2)
  have s8 : codePass doc = doc := by
    rw [codePass]
    exact runPass_id (occursM_guard (headGuard_matchSpan '`' _ _ _) h3)
  have s9 : linkPass doc = doc := by
    rw [linkPass]
    exact runPass_id (occursM_guard headGuard_matchLink h4)
  have s10 : dashPass doc = doc := by
    rw [dashPass]
    apply mapLines_id
    intro l hl
    have hline := h7 l hl
    simp only [lineOK, Bool.and_eq_true, Bool.not_eq_true'] at hline
    exact dashLine_id hline.1.2
  have s11 : numPass doc = doc := by
    rw [numPass]
    apply mapLines_id
    intro l hl
    have hline := h7 l hl
    simp only [lineOK, Bool.and_eq_true, Bool.not_eq_true'] at hline
    exact numLine_id hline.2
  have s12 : groupPass doc = doc := by
    rw [groupPass]
    exact runPass_id (occursM_guard headGuard_matchLiGroup h5)
  have s13 : mergePass doc = doc := by
    rw [mergePass]
    exact runPass_id (occursM_guard (headGuard_litMatch _ _ _) h5)
  have s14 : paragraphPass doc = pOpen ++ doc ++ pClose := by
    rw [paragraphPass, runPass_id (by rw [occursM_litMatch]; exact h6)]
  rw [simple_markdown_to_html, s1, s2, s3, s4, s5, s6, s7, s8, s9, s10, s11, s12,
    s13, s14]
  cases doc with
  | nil => simp [hasNonWS] at h1
  | cons d dt =>
    have hd : d ≠ '<' := (noChar_cons h5).1
    have hbe : (('<' : Char) == d) = false := by
      simp only [beq_eq_false_iff_ne, ne_eq]
      exact fun hh => hd hh.symm
    have hdec : ∀ m : Matcher, HeadGuard m '<' →
        m ('<' :: 'p' :: '>' :: ((d :: dt) ++ pClose)) = none →
        occursM m pClose = false →
        occursM m (pOpen ++ ((d :: dt) ++ pClose)) = false := by
      intro m hg h0 hcl
      rw [show (pOpen : List Char) ++ ((d :: dt) ++ pClose) =
        '<' :: 'p' :: '>' :: ((d :: dt) ++ pClose) from rfl]
      rw [occursM, h0, occursM, matcher_none_of_head _ hg (by decide),
        occursM, matcher_none_of_head _ hg (by decide),
        occursM_append, occursMA_guard hg _ h5, hcl]
      rfl
    obtain ⟨c0, t0, he0, hc0, hw0⟩ := dropWS_first pClose (d :: dt) h1 h5
    have hn1 : matchEmptyP ('<' :: 'p' :: '>' :: ((d :: dt) ++ pClose)) = none := by
      have hpre : (pOpen : List Char).isPrefixOf
          ('<' :: 'p' :: '>' :: ((d :: dt) ++ pClose)) = true := by
        simp [pOpen, List.isPrefixOf_cons₂]
      simp only [matchEmptyP, hpre, if_true]
      rw [show (('<' :: 'p' :: '>' :: ((d :: dt) ++ pClose)) : List Char).drop 3 =
        (d :: dt) ++ pClose from rfl]
      rw [he0, show (pClose : List Char) = '<' :: '/' :: 'p' :: '>' :: [] from rfl,
        isPrefixOf_cons_neq _ _ hc0]
      simp
    have hn2 : matchPH ('<' :: 'p' :: '>' :: ((d :: dt) ++ pClose)) = none := by
      simp [matchPH, orElseM, litMatch, List.isPrefixOf_cons₂, hbe]
    have hn3 : matchHP ('<' :: 'p' :: '>' :: ((d :: dt) ++ pClose)) = none := by
      simp [matchHP, orElseM, litMatch, List.isPrefixOf_cons₂]
    have hn4 : litMatch (pOpen ++ ['<', 'p', 'r', 'e', '>']) ['<', 'p', 'r', 'e', '>']
        ('<' :: 'p' :: '>' :: ((d :: dt) ++ pClose)) = none := by
      simp [litMatch, pOpen, List.isPrefixOf_cons₂, hbe]
    have hn5 : litMatch (['<', '/', 'p', 'r', 'e', '>'] ++ pClose) ['<', '/', 'p', 'r', 'e', '>']
        ('<' :: 'p' :: '>' :: ((d :: dt) ++ pClose)) = none := by
      simp [litMatch, pClose, List.isPrefixOf_cons₂]
    have hn6 : litMatch (pOpen ++ ulOpen) ulOpen
        ('<' :: 'p' :: '>' :: ((d :: dt) ++ pClose)) = none := by
      simp [litMatch, pOpen, ulOpen, List.isPrefixOf_cons₂, hbe]
    have hn7 : litMatch (ulClose ++ pClose) ulClose
        ('<' :: 'p' :: '>' :: ((d :: dt) ++ pClose)) = none := by
      simp [litMatch, ulClose, pClose, List.isPrefixOf_cons₂]
    rw [List.append_assoc, normalize,
      runPass_id (hdec _ headGuard_matchEmptyP hn1 (by decide)),
      runPass_id (hdec _ headGuard_matchPH hn2 (by decide)),
      runPass_id (hdec _ headGuard_matchHP hn3 (by decide)),
      runPass_id (hdec (litMatch (pOpen ++ ['<', 'p', 'r', 'e', '>'])
        ['<', 'p', 'r', 'e', '>']) (headGuard_litMatch _ _ _) hn4 (by decide)),
      runPass_id (hdec (litMatch (['<', '/', 'p', 'r', 'e', '>'] ++ pClose)
        ['<', '/', 'p', 'r', 'e', '>']) (headGuard_litMatch _ _ _) hn5 (by decide)),
      runPass_id (hdec (litMatch (pOpen ++ ulOpen) ulOpen)
        (headGuard_litMatch _ _ _) hn6 (by decide)),
      runPass_id (hdec (litMatch (ulClose ++ pClose) ulClose)
        (headGuard_litMatch _ _ _) hn7 (by decide))]

/-- C7, witness: the plain document `hello` converts to exactly
`<p>hello</p>`. -/
theorem claim_C7_witness :
    simple_markdown_to_html ('h' :: 'e' :: 'l' :: 'l' :: 'o' :: []) =
      pOpen ++ ('h' :: 'e' :: 'l' :: 'l' :: 'o' :: []) ++ pClose :=
  claim_C7 _ (by decide)

end BuildDocs
